import Mathlib

/- Shallow embedding of the Hackathon DAO governance and royalty settlement
subsystem: the proposal lifecycle (ProposalManager), the weighted voting
engine (VotingSystem) and the royalty distribution engine (RoyaltyEngine).
JavaScript numbers are modelled as rationals, timestamps as integers, and
the document store as in-memory lists of records keyed by their id fields;
`db.get` is first-match lookup, `db.insert` appends, `db.update` replaces
the stored record (the engines always pass the whole updated object), and
`db.query` filters by field equality, mirroring the SQL-backed wrapper. -/

namespace HackathonDAO

/-- Member record: only the fields consumed by the governance core
(vote-weight and royalty-weight computation) are modelled. -/
structure Member where
  id : String
  role : String
  reputation : ℚ
  deriving DecidableEq

/-- Milestone record inside a team document. -/
structure Milestone where
  id : String
  status : String
  completedAt : ℤ
  deriving DecidableEq

/-- Team record: membership list and milestones. -/
structure Team where
  id : String
  members : List String
  milestones : List Milestone
  deriving DecidableEq

/-- Contribution record (consumed, not owned, by the core). -/
structure Contribution where
  id : String
  teamId : String
  memberId : String
  ctype : String
  score : ℚ
  verified : Bool
  timestamp : ℤ
  deriving DecidableEq

/-- Ballot record created by castVote. -/
structure Vote where
  id : String
  proposalId : String
  voterId : String
  vote : String
  reason : String
  weight : ℚ
  timestamp : ℤ
  deriving DecidableEq

/-- Proposal record (metadata payload is not consumed by any verified
operation and is omitted). -/
structure Proposal where
  id : String
  ptype : String
  title : String
  description : String
  proposedBy : String
  teamId : String
  status : String
  votesFor : ℚ
  votesAgainst : ℚ
  votesAbstain : ℚ
  voters : List String
  createdAt : ℤ
  expiresAt : ℤ
  executedAt : Option ℤ
  quorumRequired : ℚ
  approvalThreshold : ℚ
  deriving DecidableEq

/-- Per-member allocation row inside a royalty pool. The four models emit
different breakdown fields; absent ones are `none`. -/
structure Dist where
  memberId : String
  amount : ℚ
  percentage : ℚ
  contributionScore : Option ℚ
  weightedScore : Option ℚ
  contributionCount : ℕ
  contributionIds : List String
  breakdownContribution : Option ℚ
  breakdownEqualShare : Option ℚ
  deriving DecidableEq

/-- Royalty pool record; metadata.period is flattened into periodStart and
periodEnd (the only metadata fields the engine reads). -/
structure RoyaltyPool where
  id : String
  name : String
  teamId : String
  totalAmount : ℚ
  currency : String
  distributionModel : String
  status : String
  createdAt : ℤ
  distributedAt : Option ℤ
  distributions : List Dist
  periodStart : ℤ
  periodEnd : ℤ
  deriving DecidableEq

/-- The document store: one list per collection. -/
structure Db where
  teams : List Team
  members : List Member
  contributions : List Contribution
  proposals : List Proposal
  votes : List Vote
  royalties : List RoyaltyPool
  deriving DecidableEq

/-- db.get('teams', id). -/
def getTeam (db : Db) (id : String) : Option Team :=
  db.teams.find? (fun t => t.id == id)

/-- db.get('members', id). -/
def getMember (db : Db) (id : String) : Option Member :=
  db.members.find? (fun m => m.id == id)

/-- db.get('proposals', id). -/
def getProposal (db : Db) (id : String) : Option Proposal :=
  db.proposals.find? (fun p => p.id == id)

/-- db.get('royalties', id). -/
def getPool (db : Db) (id : String) : Option RoyaltyPool :=
  db.royalties.find? (fun p => p.id == id)

/-- Math.round(q * 100) / 100, the 2-decimal rounding used for vote weights
(Math.round x = floor (x + 0.5) on the non-negative values that arise). -/
def round2 (q : ℚ) : ℚ :=
  ((⌊q * 100 + 0.5⌋ : ℤ) : ℚ) / 100

/-- VotingSystem.calculateVoteWeight: base 1, reputation bonus clamped to
[0, 0.5], contribution bonus capped at 0.3 (0.02 per verified contribution
on the team), role bonus (team_lead 0.2, senior 0.1, otherwise 0), rounded
to 2 decimals; a missing member record gives weight 1. -/
def calculateVoteWeight (db : Db) (voterId teamId : String) : ℚ :=
  match getMember db voterId with
  | none => 1
  | some member =>
    let reputationBonus := (member.reputation - 100) / 1000
    let verifiedContributions :=
      ((db.contributions.filter
        (fun c => c.memberId == voterId && c.teamId == teamId)).filter
        (fun c => c.verified)).length
    let contributionBonus :=
      min 0.3 ((verifiedContributions : ℚ) * 0.02)
    let roleBonus : ℚ :=
      if member.role == "team_lead" then 0.2
      else if member.role == "senior" then 0.1
      else 0
    round2 (1 + max 0 (min 0.5 reputationBonus) + contributionBonus + roleBonus)

/-- VotingSystem.checkVoterEligibility: the voter must belong to the
proposal's team. -/
def checkVoterEligibility (db : Db) (proposalId voterId : String) : Bool :=
  match getProposal db proposalId with
  | none => false
  | some proposal =>
    match getTeam db proposal.teamId with
    | none => false
    | some team => team.members.contains voterId

/-- Argument record of castVote. -/
structure VoteData where
  proposalId : String
  voterId : String
  vote : String
  reason : String
  deriving DecidableEq

/-- VotingSystem.castVote. `newVoteId` stands for db.generateId() and `now`
for Date.now(); the returned Db is the store after the call (unchanged when
a validation throws, since every check precedes the insert and update). -/
def castVote (db : Db) (newVoteId : String) (vd : VoteData) (now : ℤ) :
    Db × Except String Vote :=
  match getProposal db vd.proposalId with
  | none => (db, .error ("Proposal " ++ vd.proposalId ++ " not found"))
  | some proposal =>
    if proposal.status != "active" then
      (db, .error "Proposal is not active")
    else if now > proposal.expiresAt then
      (db, .error "Proposal has expired")
    else if !(checkVoterEligibility db vd.proposalId vd.voterId) then
      (db, .error "Voter is not eligible for this proposal")
    else if proposal.voters.contains vd.voterId then
      (db, .error "Voter has already cast a vote on this proposal")
    else if !(["for", "against", "abstain"].contains vd.vote) then
      (db, .error ("Invalid vote option: " ++ vd.vote))
    else
      let w := calculateVoteWeight db vd.voterId proposal.teamId
      let voteRecord : Vote :=
        { id := newVoteId, proposalId := vd.proposalId, voterId := vd.voterId,
          vote := vd.vote, reason := vd.reason, weight := w, timestamp := now }
      let db1 : Db := { db with votes := db.votes ++ [voteRecord] }
      let proposal' : Proposal :=
        { proposal with
          voters := proposal.voters ++ [vd.voterId],
          votesFor :=
            if vd.vote == "for" then proposal.votesFor + w else proposal.votesFor,
          votesAgainst :=
            if vd.vote == "against" then proposal.votesAgainst + w
            else proposal.votesAgainst,
          votesAbstain :=
            if vd.vote == "abstain" then proposal.votesAbstain + w
            else proposal.votesAbstain }
      let db2 : Db :=
        { db1 with
          proposals := db1.proposals.map
            (fun q => if q.id == vd.proposalId then proposal' else q) }
      (db2, .ok voteRecord)

/-- Argument record of createProposal. JavaScript applies `||` defaults to
expiresAt, quorumRequired and approvalThreshold; the absent case is
modelled with `Option` (falsy-but-present values do not arise here). -/
structure ProposalData where
  ptype : String
  title : String
  description : String
  proposedBy : String
  teamId : String
  expiresAt : Option ℤ
  quorumRequired : Option ℚ
  approvalThreshold : Option ℚ
  deriving DecidableEq

/-- ProposalManager.createProposal: inserts a fresh active proposal with
zero tallies, default 7-day expiry, default quorum 0.5 and default
approval threshold 0.66. `newId` stands for db.generateId(). -/
def createProposal (db : Db) (newId : String) (pd : ProposalData) (now : ℤ) :
    Db × Proposal :=
  let proposal : Proposal :=
    { id := newId, ptype := pd.ptype, title := pd.title,
      description := pd.description, proposedBy := pd.proposedBy,
      teamId := pd.teamId, status := "active",
      votesFor := 0, votesAgainst := 0, votesAbstain := 0, voters := [],
      createdAt := now,
      expiresAt := pd.expiresAt.getD (now + 7 * 24 * 60 * 60 * 1000),
      executedAt := none,
      quorumRequired := pd.quorumRequired.getD 0.5,
      approvalThreshold := pd.approvalThreshold.getD 0.66 }
  ({ db with proposals := db.proposals ++ [proposal] }, proposal)

/-- Result record of checkQuorum. -/
structure QuorumResult where
  reached : Bool
  current : ℚ
  required : ℚ
  percentage : ℚ
  deriving DecidableEq

/-- Result record of checkApproval (the echoed tally fields are omitted;
only passed and percentage are consumed). -/
structure ApprovalResult where
  passed : Bool
  percentage : ℚ
  deriving DecidableEq

/-- ProposalManager.checkQuorum: weighted participation against
teamSize * quorumRequired. -/
def checkQuorum (db : Db) (proposalId : String) : Except String QuorumResult :=
  match getProposal db proposalId with
  | none => .error ("Proposal " ++ proposalId ++ " not found")
  | some proposal =>
    match getTeam db proposal.teamId with
    | none => .error ("Team " ++ proposal.teamId ++ " not found")
    | some team =>
      let totalVotes :=
        proposal.votesFor + proposal.votesAgainst + proposal.votesAbstain
      let eligibleVoters : ℚ := (team.members.length : ℚ)
      let quorum := eligibleVoters * proposal.quorumRequired
      .ok { reached := decide (totalVotes ≥ quorum), current := totalVotes,
            required := quorum,
            percentage := totalVotes / eligibleVoters * 100 }

/-- ProposalManager.checkApproval: votesFor / (votesFor + votesAgainst)
against approvalThreshold; zero participation never passes. -/
def checkApproval (db : Db) (proposalId : String) :
    Except String ApprovalResult :=
  match getProposal db proposalId with
  | none => .error ("Proposal " ++ proposalId ++ " not found")
  | some proposal =>
    let totalVotes := proposal.votesFor + proposal.votesAgainst
    if totalVotes = 0 then
      .ok { passed := false, percentage := 0 }
    else
      let approvalPercentage := proposal.votesFor / totalVotes
      .ok { passed := decide (approvalPercentage ≥ proposal.approvalThreshold),
            percentage := approvalPercentage * 100 }

/-- ProposalManager.finalizeProposal: requires an active proposal, then
commits 'passed' (stamping executedAt) when quorum and approval both hold,
else 'expired' when past expiresAt, else the default 'rejected'. -/
def finalizeProposal (db : Db) (proposalId : String) (now : ℤ) :
    Db × Except String Proposal :=
  match getProposal db proposalId with
  | none => (db, .error ("Proposal " ++ proposalId ++ " not found"))
  | some proposal =>
    if proposal.status != "active" then
      (db, .error "Proposal is not active")
    else
      match checkQuorum db proposalId with
      | .error e => (db, .error e)
      | .ok quorum =>
        match checkApproval db proposalId with
        | .error e => (db, .error e)
        | .ok approval =>
          let proposal' : Proposal :=
            if quorum.reached && approval.passed then
              { proposal with status := "passed", executedAt := some now }
            else if now > proposal.expiresAt then
              { proposal with status := "expired" }
            else
              { proposal with status := "rejected" }
          let db' : Db :=
            { db with
              proposals := db.proposals.map
                (fun q => if q.id == proposalId then proposal' else q) }
          (db', .ok proposal')

/-- RoyaltyEngine.getContributionsForPeriod: the team's contributions that
are verified and timestamped within [startDate, endDate]. -/
def getContributionsForPeriod (db : Db) (teamId : String)
    (startDate endDate : ℤ) : List Contribution :=
  (db.contributions.filter (fun c => c.teamId == teamId)).filter
    (fun c => startDate ≤ c.timestamp && c.timestamp ≤ endDate && c.verified)

/-- The eligible contribution set of a pool. -/
def eligibleContributions (db : Db) (pool : RoyaltyPool) : List Contribution :=
  getContributionsForPeriod db pool.teamId pool.periodStart pool.periodEnd

/-- Per-member accumulator of the linear grouping loop. -/
structure MemberAgg where
  memberId : String
  totalScore : ℚ
  contributionCount : ℕ
  contributions : List String
  deriving DecidableEq

/-- One step of the linear grouping: accumulate into the existing entry for
the contribution's member (JavaScript object keys are unique) or append a
fresh entry in first-seen order. -/
def addContribLinear (c : Contribution) : List MemberAgg → List MemberAgg
  | [] => [{ memberId := c.memberId, totalScore := c.score,
             contributionCount := 1, contributions := [c.id] }]
  | a :: rest =>
    if a.memberId == c.memberId then
      { a with totalScore := a.totalScore + c.score,
               contributionCount := a.contributionCount + 1,
               contributions := a.contributions ++ [c.id] } :: rest
    else a :: addContribLinear c rest

/-- The memberContributions map of calculateLinearDistribution. -/
def groupLinear (contribs : List Contribution) : List MemberAgg :=
  contribs.foldl (fun acc c => addContribLinear c acc) []

/-- Descending insertion by amount, modelling the sort((a, b) =>
b.amount - a.amount) on the distribution rows. -/
def insertDesc (d : Dist) : List Dist → List Dist
  | [] => [d]
  | x :: xs => if d.amount > x.amount then d :: x :: xs else x :: insertDesc d xs

/-- Sort distribution rows by descending amount. -/
def sortByAmountDesc (l : List Dist) : List Dist :=
  l.foldr insertDesc []

/-- RoyaltyEngine.calculateLinearDistribution: group by member, sum raw
scores, split totalAmount proportionally, sort descending by amount. -/
def calculateLinearDistribution (pool : RoyaltyPool)
    (contributions : List Contribution) : List Dist :=
  let memberContributions := groupLinear contributions
  let totalScore := (memberContributions.map (fun m => m.totalScore)).sum
  let distributions := memberContributions.map (fun data =>
    let percentage := data.totalScore / totalScore
    let amount := pool.totalAmount * percentage
    { memberId := data.memberId, amount := amount,
      percentage := percentage * 100,
      contributionScore := some data.totalScore, weightedScore := none,
      contributionCount := data.contributionCount,
      contributionIds := data.contributions,
      breakdownContribution := none, breakdownEqualShare := none })
  sortByAmountDesc distributions

/-- Role weights of the weighted model (default 1.0). -/
def roleWeightOf (role : String) : ℚ :=
  if role == "team_lead" then 1.5
  else if role == "senior" then 1.3
  else if role == "member" then 1.0
  else if role == "junior" then 0.8
  else 1.0

/-- Contribution-type weights of the weighted model (default 1.0). -/
def typeWeightOf (t : String) : ℚ :=
  if t == "code" then 1.2
  else if t == "review" then 1.0
  else if t == "documentation" then 0.9
  else if t == "design" then 1.1
  else if t == "testing" then 1.0
  else if t == "research" then 1.0
  else if t == "ideation" then 0.8
  else if t == "presentation" then 0.9
  else 1.0

/-- Per-member accumulator of the weighted grouping loop. -/
structure MemberAggW where
  memberId : String
  totalWeightedScore : ℚ
  contributionCount : ℕ
  contributions : List String
  deriving DecidableEq

/-- Accumulate a weighted score into the entry for the given member, or
append a fresh entry in first-seen order. -/
def insertWeighted (c : Contribution) (ws : ℚ) :
    List MemberAggW → List MemberAggW
  | [] => [{ memberId := c.memberId, totalWeightedScore := ws,
             contributionCount := 1, contributions := [c.id] }]
  | a :: rest =>
    if a.memberId == c.memberId then
      { a with totalWeightedScore := a.totalWeightedScore + ws,
               contributionCount := a.contributionCount + 1,
               contributions := a.contributions ++ [c.id] } :: rest
    else a :: insertWeighted c ws rest

/-- One step of the weighted grouping: a contribution whose member record
is missing is skipped (`if (!member) continue`), otherwise its score is
scaled by the role and type weights and accumulated. -/
def addContribWeighted (db : Db) (acc : List MemberAggW) (c : Contribution) :
    List MemberAggW :=
  match getMember db c.memberId with
  | none => acc
  | some member =>
    insertWeighted c
      (c.score * roleWeightOf member.role * typeWeightOf c.ctype) acc

/-- The memberContributions map of calculateWeightedDistribution. -/
def groupWeighted (db : Db) (contribs : List Contribution) : List MemberAggW :=
  contribs.foldl (addContribWeighted db) []

/-- The weighted score a contribution adds to the weighted grouping: 0 when
its member record is missing (the loop skips it), otherwise the score
scaled by the role and type weights. -/
def wsOf (db : Db) (c : Contribution) : ℚ :=
  match getMember db c.memberId with
  | none => 0
  | some member => c.score * roleWeightOf member.role * typeWeightOf c.ctype

/-- RoyaltyEngine.calculateWeightedDistribution: group with role and type
weights, split totalAmount proportionally to the weighted sums. -/
def calculateWeightedDistribution (db : Db) (pool : RoyaltyPool)
    (contributions : List Contribution) : List Dist :=
  let memberContributions := groupWeighted db contributions
  let totalWeightedScore :=
    (memberContributions.map (fun m => m.totalWeightedScore)).sum
  let distributions := memberContributions.map (fun data =>
    let percentage := data.totalWeightedScore / totalWeightedScore
    let amount := pool.totalAmount * percentage
    { memberId := data.memberId, amount := amount,
      percentage := percentage * 100,
      contributionScore := none, weightedScore := some data.totalWeightedScore,
      contributionCount := data.contributionCount,
      contributionIds := data.contributions,
      breakdownContribution := none, breakdownEqualShare := none })
  sortByAmountDesc distributions

/-- RoyaltyEngine.calculateMilestoneDistribution: requires the pool's team
and at least one milestone completed within the period, then falls back to
the linear split over the same contributions (the per-milestone share is
computed but unused in the source). -/
def calculateMilestoneDistribution (db : Db) (pool : RoyaltyPool)
    (contributions : List Contribution) : Except String (List Dist) :=
  match getTeam db pool.teamId with
  | none => .error "Team or milestones not found"
  | some team =>
    let completedMilestones := team.milestones.filter (fun m =>
      m.status == "completed" && pool.periodStart ≤ m.completedAt &&
        m.completedAt ≤ pool.periodEnd)
    if completedMilestones.isEmpty then
      .error "No completed milestones in period"
    else
      .ok (calculateLinearDistribution pool contributions)

/-- The row calculateHybridDistribution emits for one weighted row: its
proportional share of the 70% pool plus the flat equal share of the 30%
pool. -/
def hybRow (poolTotal weightedAmount equalShare : ℚ) (dist : Dist) : Dist :=
  let contributionAmount := dist.amount / poolTotal * weightedAmount
  let totalAmount := contributionAmount + equalShare
  { memberId := dist.memberId, amount := totalAmount,
    percentage := totalAmount / poolTotal * 100,
    contributionScore := none, weightedScore := none,
    contributionCount := dist.contributionCount,
    contributionIds := dist.contributionIds,
    breakdownContribution := some contributionAmount,
    breakdownEqualShare := some equalShare }

/-- The loop body of calculateHybridDistribution: each not-yet-processed
weighted row contributes one hybRow; rows whose member was already
processed are skipped. -/
def hybridLoop (poolTotal weightedAmount equalShare : ℚ) :
    List String → List Dist → List Dist
  | _, [] => []
  | processed, dist :: rest =>
    if processed.contains dist.memberId then
      hybridLoop poolTotal weightedAmount equalShare processed rest
    else
      hybRow poolTotal weightedAmount equalShare dist ::
        hybridLoop poolTotal weightedAmount equalShare
          (processed ++ [dist.memberId]) rest

/-- RoyaltyEngine.calculateHybridDistribution: 70% of totalAmount by the
weighted proportions plus 30% split equally over the distinct contributing
members (`new Set(contributions.map(c => c.memberId)).size` is the number
of distinct member ids). -/
def calculateHybridDistribution (db : Db) (pool : RoyaltyPool)
    (contributions : List Contribution) : List Dist :=
  let weightedDist := calculateWeightedDistribution db pool contributions
  let memberIdsSize := ((contributions.map (fun c => c.memberId)).dedup).length
  let equalShare := pool.totalAmount * 0.3 / (memberIdsSize : ℚ)
  let weightedAmount := pool.totalAmount * 0.7
  sortByAmountDesc
    (hybridLoop pool.totalAmount weightedAmount equalShare [] weightedDist)

/-- The model switch of calculateDistribution: unrecognized models fall
through to the linear split (`default:` branch). -/
def dispatchModel (db : Db) (pool : RoyaltyPool)
    (contributions : List Contribution) : Except String (List Dist) :=
  if pool.distributionModel == "linear" then
    .ok (calculateLinearDistribution pool contributions)
  else if pool.distributionModel == "weighted" then
    .ok (calculateWeightedDistribution db pool contributions)
  else if pool.distributionModel == "milestone" then
    calculateMilestoneDistribution db pool contributions
  else if pool.distributionModel == "hybrid" then
    .ok (calculateHybridDistribution db pool contributions)
  else
    .ok (calculateLinearDistribution pool contributions)

/-- RoyaltyEngine.calculateDistribution: fetch the pool and its eligible
contributions (empty set errors), dispatch on the distribution model, then
overwrite the pool's distributions and set its status to 'calculated'.
The pool's current status is never checked. -/
def calculateDistribution (db : Db) (poolId : String) :
    Db × Except String (List Dist) :=
  match getPool db poolId with
  | none => (db, .error ("Royalty pool " ++ poolId ++ " not found"))
  | some pool =>
    let contributions := eligibleContributions db pool
    if contributions.isEmpty then
      (db, .error "No contributions found for this period")
    else
      match dispatchModel db pool contributions with
      | .error e => (db, .error e)
      | .ok distributions =>
        let pool' : RoyaltyPool :=
          { pool with distributions := distributions, status := "calculated" }
        ({ db with
           royalties := db.royalties.map
             (fun q => if q.id == poolId then pool' else q) },
         .ok distributions)

/-- Sum of the amount fields of a distribution row list. -/
def sumAmount (l : List Dist) : ℚ :=
  (l.map (fun d => d.amount)).sum

/-- Sum of the percentage fields of a distribution row list. -/
def sumPct (l : List Dist) : ℚ :=
  (l.map (fun d => d.percentage)).sum

/-- Sum of the weights of the ballots recorded for a proposal. -/
def weightSumFor (votes : List Vote) (pid : String) : ℚ :=
  ((votes.filter (fun v => v.proposalId == pid)).map (fun v => v.weight)).sum

/-- Tally conservation for one proposal: its accumulated tallies equal the
weight sum of its recorded ballots. -/
def tallyInvariant (db : Db) (pid : String) : Prop :=
  ∀ p, getProposal db pid = some p →
    p.votesFor + p.votesAgainst + p.votesAbstain = weightSumFor db.votes pid

/-- A castVote invocation: the generated ballot id, the ballot data and the
invocation time. -/
structure CastCall where
  voteId : String
  voteData : VoteData
  now : ℤ
  deriving DecidableEq

/-- The store after a castVote invocation (whether or not it succeeded). -/
def applyCast (db : Db) (call : CastCall) : Db :=
  (castVote db call.voteId call.voteData call.now).1

/-- The ballot record castVote builds in its success branch. -/
def newBallot (db : Db) (newVoteId : String) (vd : VoteData) (now : ℤ)
    (proposal : Proposal) : Vote :=
  { id := newVoteId, proposalId := vd.proposalId, voterId := vd.voterId,
    vote := vd.vote, reason := vd.reason,
    weight := calculateVoteWeight db vd.voterId proposal.teamId,
    timestamp := now }

/-- The updated proposal castVote persists in its success branch: the voter
is appended and the matching tally grows by the ballot weight. -/
def tallyProposal (db : Db) (vd : VoteData) (proposal : Proposal) : Proposal :=
  { proposal with
    voters := proposal.voters ++ [vd.voterId],
    votesFor :=
      if vd.vote == "for" then
        proposal.votesFor + calculateVoteWeight db vd.voterId proposal.teamId
      else proposal.votesFor,
    votesAgainst :=
      if vd.vote == "against" then
        proposal.votesAgainst +
          calculateVoteWeight db vd.voterId proposal.teamId
      else proposal.votesAgainst,
    votesAbstain :=
      if vd.vote == "abstain" then
        proposal.votesAbstain +
          calculateVoteWeight db vd.voterId proposal.teamId
      else proposal.votesAbstain }

/-- clamp lo hi x as the spec writes it. -/
def clamp (lo hi x : ℚ) : ℚ :=
  max lo (min hi x)

/-- The number of verified contributions by a member on a team. -/
def verifiedContributionCount (db : Db) (memberId teamId : String) : ℕ :=
  ((db.contributions.filter
    (fun c => c.memberId == memberId && c.teamId == teamId)).filter
    (fun c => c.verified)).length

/-- The vote-weight formula exactly as the specification states it:
1.0 plus clamp(0, 0.5, (reputation - 100) / 1000), plus
min(0.3, verifiedCount * 0.02), plus the role bonus, rounded to 2 decimal
places; a missing member record gives exactly 1. -/
def specVoteWeight (member : Option Member) (verifiedCount : ℕ) : ℚ :=
  match member with
  | none => 1
  | some m =>
    round2 (1 + clamp 0 0.5 ((m.reputation - 100) / 1000)
      + min 0.3 ((verifiedCount : ℚ) * 0.02)
      + (if m.role == "team_lead" then 0.2
         else if m.role == "senior" then 0.1 else 0))

/-- The empty store. -/
def emptyDb : Db :=
  { teams := [], members := [], contributions := [], proposals := [],
    votes := [], royalties := [] }

/-- An undecided, unexpired active proposal: no votes yet, deadline 100. -/
def pEarly : Proposal :=
  { id := "p1", ptype := "team_decision", title := "T", description := "D",
    proposedBy := "m1", teamId := "t1", status := "active",
    votesFor := 0, votesAgainst := 0, votesAbstain := 0, voters := [],
    createdAt := 0, expiresAt := 100, executedAt := none,
    quorumRequired := 0.5, approvalThreshold := 0.66 }

/-- Store holding pEarly and its 2-member team. -/
def dbEarly : Db :=
  { teams := [{ id := "t1", members := ["m1", "m2"], milestones := [] }],
    members := [], contributions := [], proposals := [pEarly], votes := [],
    royalties := [] }

/-- A royalty pool that has already been distributed. -/
def poolDistributed : RoyaltyPool :=
  { id := "r1", name := "Prize", teamId := "t1", totalAmount := 100,
    currency := "USD", distributionModel := "linear", status := "distributed",
    createdAt := 0, distributedAt := some 60, distributions := [],
    periodStart := 0, periodEnd := 100 }

/-- Store with a distributed pool and one eligible contribution. -/
def dbDistributed : Db :=
  { teams := [{ id := "t1", members := ["m1"], milestones := [] }],
    members := [],
    contributions := [{ id := "c1", teamId := "t1", memberId := "m1",
                        ctype := "code", score := 10, verified := true,
                        timestamp := 50 }],
    proposals := [], votes := [], royalties := [poolDistributed] }

/-- A contribution whose member record is missing from the store. -/
def contribGhost : Contribution :=
  { id := "c1", teamId := "t1", memberId := "gX", ctype := "code",
    score := 10, verified := true, timestamp := 50 }

/-- A pending weighted-model pool of amount 1000 over period [0, 100]. -/
def poolGhost : RoyaltyPool :=
  { id := "r1", name := "Prize", teamId := "t1", totalAmount := 1000,
    currency := "USD", distributionModel := "weighted", status := "pending",
    createdAt := 0, distributedAt := none, distributions := [],
    periodStart := 0, periodEnd := 100 }

/-- A pending weighted-model pool whose only eligible contribution belongs
to a member with no member record. -/
def dbGhostMember : Db :=
  { teams := [{ id := "t1", members := ["gX"], milestones := [] }],
    members := [], contributions := [contribGhost],
    proposals := [], votes := [], royalties := [poolGhost] }

/-- A pending linear pool of amount 100 over period [0, 100]. -/
def poolLinear : RoyaltyPool :=
  { id := "r1", name := "Prize", teamId := "t1", totalAmount := 100,
    currency := "USD", distributionModel := "linear", status := "pending",
    createdAt := 0, distributedAt := none, distributions := [],
    periodStart := 0, periodEnd := 100 }

/-- A pending linear pool with one member and one eligible contribution. -/
def dbLinearSimple : Db :=
  { teams := [{ id := "t1", members := ["m1"], milestones := [] }],
    members := [{ id := "m1", role := "member", reputation := 100 }],
    contributions := [{ id := "c1", teamId := "t1", memberId := "m1",
                        ctype := "code", score := 10, verified := true,
                        timestamp := 50 }],
    proposals := [], votes := [], royalties := [poolLinear] }

/-- 15 verified code contributions by m1 on t1, enough to max out the
contribution bonus. -/
def maxContribs : List Contribution :=
  [{ id := "c01", teamId := "t1", memberId := "m1", ctype := "code",
     score := 1, verified := true, timestamp := 10 },
   { id := "c02", teamId := "t1", memberId := "m1", ctype := "code",
     score := 1, verified := true, timestamp := 10 },
   { id := "c03", teamId := "t1", memberId := "m1", ctype := "code",
     score := 1, verified := true, timestamp := 10 },
   { id := "c04", teamId := "t1", memberId := "m1", ctype := "code",
     score := 1, verified := true, timestamp := 10 },
   { id := "c05", teamId := "t1", memberId := "m1", ctype := "code",
     score := 1, verified := true, timestamp := 10 },
   { id := "c06", teamId := "t1", memberId := "m1", ctype := "code",
     score := 1, verified := true, timestamp := 10 },
   { id := "c07", teamId := "t1", memberId := "m1", ctype := "code",
     score := 1, verified := true, timestamp := 10 },
   { id := "c08", teamId := "t1", memberId := "m1", ctype := "code",
     score := 1, verified := true, timestamp := 10 },
   { id := "c09", teamId := "t1", memberId := "m1", ctype := "code",
     score := 1, verified := true, timestamp := 10 },
   { id := "c10", teamId := "t1", memberId := "m1", ctype := "code",
     score := 1, verified := true, timestamp := 10 },
   { id := "c11", teamId := "t1", memberId := "m1", ctype := "code",
     score := 1, verified := true, timestamp := 10 },
   { id := "c12", teamId := "t1", memberId := "m1", ctype := "code",
     score := 1, verified := true, timestamp := 10 },
   { id := "c13", teamId := "t1", memberId := "m1", ctype := "code",
     score := 1, verified := true, timestamp := 10 },
   { id := "c14", teamId := "t1", memberId := "m1", ctype := "code",
     score := 1, verified := true, timestamp := 10 },
   { id := "c15", teamId := "t1", memberId := "m1", ctype := "code",
     score := 1, verified := true, timestamp := 10 }]

/-- A team of 4 members. -/
def teamFour : Team :=
  { id := "t1", members := ["m1", "m2", "m3", "m4"], milestones := [] }

/-- Team of 4 with quorum 0.5 where the single voter m1 has maximal
bonuses: reputation 600 (bonus 0.5), team_lead (bonus 0.2), 15 verified
contributions (bonus 0.3) — vote weight exactly 2. -/
def dbMaxVoter : Db :=
  { teams := [teamFour],
    members := [{ id := "m1", role := "team_lead", reputation := 600 }],
    contributions := maxContribs,
    proposals := [pEarly], votes := [], royalties := [] }

/-- The ballot cast by the maximal-bonus voter: weight exactly 2. -/
def voteRecMax : Vote :=
  { id := "v1", proposalId := "p1", voterId := "m1", vote := "for",
    reason := "", weight := 2, timestamp := 50 }

/-- pEarly after the single weight-2 'for' ballot. -/
def pMaxAfter : Proposal :=
  { pEarly with voters := ["m1"], votesFor := 2 }

/-- dbMaxVoter after the single weight-2 'for' ballot. -/
def dbMaxAfter : Db :=
  { dbMaxVoter with proposals := [pMaxAfter], votes := [voteRecMax] }

/-- Team of 4 with quorum 0.5 where the single voter m1 has no member
record, hence vote weight 1. -/
def dbPlainVoter : Db :=
  { teams := [teamFour], members := [], contributions := [],
    proposals := [pEarly], votes := [], royalties := [] }

/-- Active proposal with tallies 4 for / 3 against (participation 7,
quorum met on the 4-member team), threshold 0.66, deadline 100. -/
def pSevenVotes : Proposal :=
  { id := "p1", ptype := "team_decision", title := "T", description := "D",
    proposedBy := "m1", teamId := "t1", status := "active",
    votesFor := 4, votesAgainst := 3, votesAbstain := 0,
    voters := ["m1", "m2", "m3", "m4", "m5"],
    createdAt := 0, expiresAt := 100, executedAt := none,
    quorumRequired := 0.5, approvalThreshold := 0.66 }

/-- Store holding pSevenVotes and its 4-member team. -/
def dbSevenVotes : Db :=
  { teams := [{ id := "t1", members := ["m1", "m2", "m3", "m4"],
                milestones := [] }],
    members := [], contributions := [], proposals := [pSevenVotes],
    votes := [], royalties := [] }


/-- A single verified in-period code contribution of score 10 by m1. -/
def contribSimple : Contribution :=
  { id := "c1", teamId := "t1", memberId := "m1", ctype := "code",
    score := 10, verified := true, timestamp := 50 }

/-- A milestone-model pool over period [0, 100] with amount 100. -/
def poolMs : RoyaltyPool :=
  { id := "r1", name := "Prize", teamId := "t1", totalAmount := 100,
    currency := "USD", distributionModel := "milestone", status := "pending",
    createdAt := 0, distributedAt := none, distributions := [],
    periodStart := 0, periodEnd := 100 }

/-- A milestone-model pool on a team with a milestone completed inside the
period. -/
def dbWithMilestone : Db :=
  { teams := [{ id := "t1", members := ["m1"],
                milestones := [{ id := "ms1", status := "completed",
                                 completedAt := 30 }] }],
    members := [{ id := "m1", role := "member", reputation := 100 }],
    contributions := [contribSimple],
    proposals := [], votes := [], royalties := [poolMs] }

/-- The pool poolMs with the linear model instead. -/
def poolMsLinear : RoyaltyPool :=
  { poolMs with distributionModel := "linear" }

/-- A milestone-model pool on a team with no completed milestone in the
period, but with one eligible contribution. -/
def dbNoMilestone : Db :=
  { teams := [{ id := "t1", members := ["m1"], milestones := [] }],
    members := [{ id := "m1", role := "member", reputation := 100 }],
    contributions := [contribSimple],
    proposals := [], votes := [], royalties := [poolMs] }

/-- The same store as dbNoMilestone except the pool's model is linear. -/
def dbNoMilestoneLinear : Db :=
  { dbNoMilestone with royalties := [poolMsLinear] }

/-- A pool whose distributionModel is not one of the four recognized
values. -/
def poolCustom : RoyaltyPool :=
  { poolMs with distributionModel := "custom" }

/-- Store holding poolCustom and one eligible contribution. -/
def dbCustomModel : Db :=
  { teams := [{ id := "t1", members := ["m1"], milestones := [] }],
    members := [{ id := "m1", role := "member", reputation := 100 }],
    contributions := [contribSimple],
    proposals := [], votes := [], royalties := [poolCustom] }

/-- A store with a team and one plain member, before any proposal. -/
def dbVoteBase : Db :=
  { teams := [{ id := "t1", members := ["m1", "m2"], milestones := [] }],
    members := [{ id := "m1", role := "member", reputation := 100 }],
    contributions := [], proposals := [], votes := [], royalties := [] }

/-- Proposal payload used when exercising createProposal. -/
def pdVoteBase : ProposalData :=
  { ptype := "team_decision", title := "T", description := "D",
    proposedBy := "m1", teamId := "t1", expiresAt := some 100,
    quorumRequired := none, approvalThreshold := none }

/-- First-match lookup is unaffected when the first list finds nothing. -/
theorem find?_append_of_none {α} (p : α → Bool) (l1 l2 : List α)
    (h : l1.find? p = none) : (l1 ++ l2).find? p = l2.find? p := by
  simp [List.find?_append, h]

/-- Replacing every record whose id matches x by a record whose id is x
makes first-match lookup of x return the replacement (when some record
matched) and leaves it empty otherwise. -/
theorem find?_update_self {α} (idOf : α → String) (l : List α) (x : String)
    (p' : α) (hid : idOf p' = x) :
    (l.map (fun q => if idOf q == x then p' else q)).find?
        (fun q => idOf q == x) =
      if (l.find? (fun q => idOf q == x)).isSome then some p' else none := by
  rw [List.find?_map]
  have hfun : ((fun q => idOf q == x) ∘ (fun q => if idOf q == x then p' else q))
      = (fun q => idOf q == x) := by
    funext q
    by_cases h : idOf q = x
    · simp [h, hid]
    · simp [h]
  rw [hfun]
  cases hf : l.find? (fun q => idOf q == x) with
  | none => simp
  | some a =>
    have ha : idOf a = x := by simpa using List.find?_some hf
    simp [ha]

/-- Replacing records whose id matches x does not affect first-match
lookup of a different id y. -/
theorem find?_update_other {α} (idOf : α → String) (l : List α) (x y : String)
    (p' : α) (hxy : y ≠ x) (hid : idOf p' = x) :
    (l.map (fun q => if idOf q == x then p' else q)).find?
        (fun q => idOf q == y) =
      l.find? (fun q => idOf q == y) := by
  rw [List.find?_map]
  have hfun : ((fun q => idOf q == y) ∘ (fun q => if idOf q == x then p' else q))
      = (fun q => idOf q == y) := by
    funext q
    by_cases h : idOf q = x
    · simp [h, hid]
    · simp [h]
  rw [hfun]
  cases hf : l.find? (fun q => idOf q == y) with
  | none => simp
  | some a =>
    have ha : idOf a = y := by simpa using List.find?_some hf
    have hax : ¬ idOf a = x := by
      rw [ha]; exact hxy
    simp [hax]

/-- A false comparison evaluates to the decided Bool false. -/
theorem decide_ge_false {x y : ℚ} (h : x < y) : decide (x ≥ y) = false :=
  decide_eq_false (not_le.mpr h)

/-- A true comparison evaluates to the decided Bool true. -/
theorem decide_ge_true {x y : ℚ} (h : y ≤ x) : decide (x ≥ y) = true :=
  decide_eq_true h

/-- A false ≤ comparison evaluates to the decided Bool false. -/
theorem decide_le_false {x y : ℚ} (h : y < x) : decide (x ≤ y) = false :=
  decide_eq_false (not_le.mpr h)

/-- A true ≤ comparison evaluates to the decided Bool true. -/
theorem decide_le_true {x y : ℚ} (h : x ≤ y) : decide (x ≤ y) = true :=
  decide_eq_true h

/-- Updating the proposal whose id is pid makes getProposal return the
updated record. -/
theorem getProposal_update (db : Db) (pid : String) (p0 p' : Proposal)
    (hid : p'.id = pid) (h : getProposal db pid = some p0) :
    getProposal { db with proposals := db.proposals.map (fun q => if q.id == pid then p' else q) } pid = some p' := by
  simp only [getProposal] at h ⊢
  rw [find?_update_self Proposal.id db.proposals pid p' hid, h]
  rfl

/-- C7: the vote weight computed at cast time equals 1.0 plus the clamped
reputation bonus, plus the capped contribution bonus, plus the role bonus,
rounded to 2 decimal places; a missing member record gives weight exactly
1 — calculateVoteWeight coincides with the specification's formula. -/
theorem voteWeight_matches_spec_formula (db : Db) (voterId teamId : String) :
    calculateVoteWeight db voterId teamId =
      specVoteWeight (getMember db voterId)
        (verifiedContributionCount db voterId teamId) := by
  unfold calculateVoteWeight specVoteWeight verifiedContributionCount clamp
  cases getMember db voterId with
  | none => rfl
  | some m => rfl

/-- C9: whenever castVote fails, the store is left entirely unchanged — no
ballot is inserted and the stored proposal keeps all its fields, since
every validation precedes the insert and update. -/
theorem castVote_failure_leaves_store_unchanged
    (db : Db) (vid : String) (vd : VoteData) (now : ℤ) (db' : Db)
    (r : Except String Vote) (e : String)
    (hcall : castVote db vid vd now = (db', r))
    (herr : r = Except.error e) : db' = db := by
  subst herr
  unfold castVote at hcall
  repeat' split at hcall
  all_goals first
    | exact (congrArg Prod.fst hcall).symm
    | simp at hcall

/-- C9 witness: casting on a missing proposal fails and returns the store
unchanged. -/
theorem castVote_failure_witness :
    castVote dbVoteBase "v1" ⟨"p1", "m1", "for", ""⟩ 0 =
        (dbVoteBase, Except.error ("Proposal " ++ "p1" ++ " not found")) ∧
      dbVoteBase = dbVoteBase :=
  ⟨by norm_num [castVote, getProposal, dbVoteBase],
   castVote_failure_leaves_store_unchanged dbVoteBase "v1"
     ⟨"p1", "m1", "for", ""⟩ 0 dbVoteBase
     (Except.error ("Proposal " ++ "p1" ++ " not found"))
     ("Proposal " ++ "p1" ++ " not found")
     (by norm_num [castVote, getProposal, dbVoteBase]) rfl⟩

/-- C1 counterexample: on an active, undecided, unexpired proposal (no
votes, deadline 100, finalized at 50) finalizeProposal does not fail — it
succeeds and commits status 'rejected', so the proposal does not stay
'active'. -/
theorem finalize_early_counterexample :
    Except.map (fun p => p.status) (finalizeProposal dbEarly "p1" 50).2 =
        Except.ok "rejected" ∧
      Option.map (fun p => p.status)
          (getProposal (finalizeProposal dbEarly "p1" 50).1 "p1") =
        some "rejected" := by
  constructor <;>
    norm_num [finalizeProposal, getProposal, getTeam, checkQuorum,
      checkApproval, dbEarly, pEarly, Except.map,
      decide_ge_false (show (0 : ℚ) < 1 by norm_num)]

/-- C1 amended: for every active proposal on which neither exit condition
holds — quorum-and-approval is not satisfied and the current time is not
past expiresAt — finalizeProposal does not fail: it succeeds and commits
the terminal status 'rejected' (the stored proposal no longer reads
'active'). -/
theorem finalize_early_commits_rejected
    (db : Db) (pid : String) (now : ℤ) (p : Proposal)
    (q : QuorumResult) (a : ApprovalResult)
    (hp : getProposal db pid = some p) (hact : p.status = "active")
    (hq : checkQuorum db pid = Except.ok q)
    (ha : checkApproval db pid = Except.ok a)
    (hno : ¬(q.reached = true ∧ a.passed = true))
    (hexp : ¬ now > p.expiresAt) :
    ∃ p', (finalizeProposal db pid now).2 = Except.ok p' ∧
      p'.status = "rejected" ∧
      getProposal (finalizeProposal db pid now).1 pid = some p' := by
  have hcond : (q.reached && a.passed) = false := by
    cases hr : q.reached <;> cases hb : a.passed <;> simp_all
  have hfind : List.find? (fun r => r.id == pid) db.proposals = some p := by
    simpa [getProposal] using hp
  have hbeq : (p.id == pid) = true := by simpa using List.find?_some hfind
  have hid : p.id = pid := eq_of_beq hbeq
  refine ⟨{ p with status := "rejected" }, ?_, rfl, ?_⟩
  · simp [finalizeProposal, hp, hact, hq, ha, hcond, hexp]
  · have hfin : (finalizeProposal db pid now).1 =
        { db with proposals := db.proposals.map (fun r => if r.id == pid then { p with status := "rejected" } else r) } := by
      simp [finalizeProposal, hp, hact, hq, ha, hcond, hexp]
    rw [hfin]
    exact getProposal_update db pid p _ hid hp

/-- C1 witness: finalize_early_commits_rejected applied to the concrete
undecided, unexpired proposal of dbEarly. -/
theorem finalize_early_witness :
    (getProposal dbEarly "p1" = some pEarly ∧ pEarly.status = "active" ∧
      checkQuorum dbEarly "p1" = Except.ok ⟨false, 0, 1, 0⟩ ∧
      checkApproval dbEarly "p1" = Except.ok ⟨false, 0⟩ ∧
      ¬((false : Bool) = true ∧ (false : Bool) = true) ∧
      ¬(50 : ℤ) > pEarly.expiresAt) ∧
    (∃ p', (finalizeProposal dbEarly "p1" 50).2 = Except.ok p' ∧
      p'.status = "rejected" ∧
      getProposal (finalizeProposal dbEarly "p1" 50).1 "p1" = some p') :=
  ⟨⟨by norm_num [getProposal, dbEarly, pEarly], rfl,
    by norm_num [checkQuorum, getProposal, getTeam, dbEarly, pEarly,
      decide_ge_false (show (0 : ℚ) < 1 by norm_num),
      decide_le_false (show (0 : ℚ) < 1 by norm_num)],
    by norm_num [checkApproval, getProposal, dbEarly, pEarly],
    by simp, by norm_num [pEarly]⟩,
   finalize_early_commits_rejected dbEarly "p1" 50 pEarly ⟨false, 0, 1, 0⟩
     ⟨false, 0⟩ (by norm_num [getProposal, dbEarly, pEarly]) rfl
     (by norm_num [checkQuorum, getProposal, getTeam, dbEarly, pEarly,
       decide_ge_false (show (0 : ℚ) < 1 by norm_num),
       decide_le_false (show (0 : ℚ) < 1 by norm_num)])
     (by norm_num [checkApproval, getProposal, dbEarly, pEarly])
     (by simp) (by norm_num [pEarly])⟩

/-- C6 counterexample: with tallies 4 for / 3 against (quorum met,
threshold 0.66) but finalized after the deadline, the status becomes
'expired', not 'rejected'. -/
theorem approval_failure_expired_counterexample :
    Except.map (fun p => p.status) (finalizeProposal dbSevenVotes "p1" 200).2 =
      Except.ok "expired" := by
  norm_num [finalizeProposal, getProposal, getTeam, checkQuorum,
    checkApproval, dbSevenVotes, pSevenVotes, Except.map,
    decide_ge_true (show (2 : ℚ) ≤ 7 by norm_num),
    decide_ge_false (show (4 : ℚ) / 7 < 33 / 50 by norm_num)]

/-- C6 amended: an active proposal with votesFor 4 (weight-sum of the
'for' ballots) and votesAgainst 3, quorum met and approvalThreshold 0.66,
finalized at a time not past expiresAt, is set to 'rejected' because
4 / 7 < 0.66; when finalized past expiresAt the code yields 'expired'
instead. -/
theorem approval_failure_rejected
    (db : Db) (pid : String) (now : ℤ) (p : Proposal) (team : Team)
    (hp : getProposal db pid = some p) (hact : p.status = "active")
    (hteam : getTeam db p.teamId = some team)
    (hf : p.votesFor = 4) (ha : p.votesAgainst = 3) (hab : p.votesAbstain = 0)
    (hquorum : (team.members.length : ℚ) * p.quorumRequired ≤ 7)
    (hth : p.approvalThreshold = 0.66)
    (hexp : ¬ now > p.expiresAt) :
    ∃ p', (finalizeProposal db pid now).2 = Except.ok p' ∧
      p'.status = "rejected" := by
  refine ⟨{ p with status := "rejected" }, ?_, rfl⟩
  norm_num [finalizeProposal, checkQuorum, checkApproval, hp, hact, hteam,
    hf, ha, hab, hth, hquorum, hexp]

/-- C6 witness: approval_failure_rejected applied to the concrete proposal
of dbSevenVotes finalized before its deadline. -/
theorem approval_failure_witness :
    (getProposal dbSevenVotes "p1" = some pSevenVotes ∧
      pSevenVotes.status = "active" ∧
      getTeam dbSevenVotes pSevenVotes.teamId =
        some { id := "t1", members := ["m1", "m2", "m3", "m4"],
               milestones := [] } ∧
      ((["m1", "m2", "m3", "m4"].length : ℕ) : ℚ) *
          pSevenVotes.quorumRequired ≤ 7 ∧
      pSevenVotes.approvalThreshold = (0.66 : ℚ) ∧
      ¬(50 : ℤ) > pSevenVotes.expiresAt) ∧
    (∃ p', (finalizeProposal dbSevenVotes "p1" 50).2 = Except.ok p' ∧
      p'.status = "rejected") :=
  ⟨⟨by norm_num [getProposal, dbSevenVotes, pSevenVotes], rfl,
    by norm_num [getTeam, dbSevenVotes, pSevenVotes],
    by norm_num [pSevenVotes], rfl, by norm_num [pSevenVotes]⟩,
   approval_failure_rejected dbSevenVotes "p1" 50 pSevenVotes
     { id := "t1", members := ["m1", "m2", "m3", "m4"], milestones := [] }
     (by norm_num [getProposal, dbSevenVotes, pSevenVotes]) rfl
     (by norm_num [getTeam, dbSevenVotes, pSevenVotes]) rfl rfl rfl
     (by norm_num [pSevenVotes]) rfl (by norm_num [pSevenVotes])⟩

/-- C2: the code lacks the required status guard — calculateDistribution
on a pool whose status is 'distributed' does not fail with InvalidState:
it succeeds, overwrites the distributions and moves the status backwards
to 'calculated'. -/
theorem distributed_pool_recalculated :
    (calculateDistribution dbDistributed "r1").2 =
        Except.ok [{ memberId := "m1", amount := 100, percentage := 100,
                     contributionScore := some 10, weightedScore := none,
                     contributionCount := 1, contributionIds := ["c1"],
                     breakdownContribution := none,
                     breakdownEqualShare := none }] ∧
      Option.map (fun r => r.status)
          (getPool (calculateDistribution dbDistributed "r1").1 "r1") =
        some "calculated" := by
  constructor <;>
    norm_num [calculateDistribution, getPool, dispatchModel,
      calculateLinearDistribution, groupLinear, addContribLinear,
      sortByAmountDesc, insertDesc, eligibleContributions,
      getContributionsForPeriod, dbDistributed, poolDistributed]

/-- A completing milestone calculation returns exactly the linear rows. -/
theorem milestone_ok_eq_linear (db : Db) (pool : RoyaltyPool)
    (contribs : List Contribution) (d : List Dist)
    (hok : calculateMilestoneDistribution db pool contribs = Except.ok d) :
    d = calculateLinearDistribution pool contribs := by
  unfold calculateMilestoneDistribution at hok
  split at hok
  · simp at hok
  · simp only [] at hok
    split at hok
    · simp at hok
    · injection hok with h
      exact h.symm

/-- The model switch takes the milestone branch. -/
theorem dispatchModel_milestone (db : Db) (pool : RoyaltyPool)
    (contribs : List Contribution) (h : pool.distributionModel = "milestone") :
    dispatchModel db pool contribs =
      calculateMilestoneDistribution db pool contribs := by
  simp [dispatchModel, h]

/-- The model switch takes the linear branch. -/
theorem dispatchModel_linear (db : Db) (pool : RoyaltyPool)
    (contribs : List Contribution) (h : pool.distributionModel = "linear") :
    dispatchModel db pool contribs =
      Except.ok (calculateLinearDistribution pool contribs) := by
  simp [dispatchModel, h]

/-- The model switch takes the weighted branch. -/
theorem dispatchModel_weighted (db : Db) (pool : RoyaltyPool)
    (contribs : List Contribution) (h : pool.distributionModel = "weighted") :
    dispatchModel db pool contribs =
      Except.ok (calculateWeightedDistribution db pool contribs) := by
  simp [dispatchModel, h]

/-- The model switch takes the hybrid branch. -/
theorem dispatchModel_hybrid (db : Db) (pool : RoyaltyPool)
    (contribs : List Contribution) (h : pool.distributionModel = "hybrid") :
    dispatchModel db pool contribs =
      Except.ok (calculateHybridDistribution db pool contribs) := by
  simp [dispatchModel, h]

/-- calculateDistribution reduces to the dispatched model result once the
pool is found and the eligible set is non-empty. -/
theorem calculateDistribution_result (db : Db) (pid : String)
    (pool : RoyaltyPool) (hpool : getPool db pid = some pool)
    (hne : eligibleContributions db pool ≠ []) :
    (calculateDistribution db pid).2 =
      dispatchModel db pool (eligibleContributions db pool) := by
  unfold calculateDistribution
  rw [hpool]
  simp only [List.isEmpty_iff, hne, if_false]
  split
  · simp_all
  · simp_all

/-- C5 counterexample: on a team with no completed milestone in the
period, the milestone model errors while the linear model on the same
inputs produces a distribution row — the two models do not produce the
same rows on every input. -/
theorem milestone_degenerate_counterexample :
    (calculateDistribution dbNoMilestone "r1").2 =
        Except.error "No completed milestones in period" ∧
      (calculateDistribution dbNoMilestoneLinear "r1").2 =
        Except.ok [{ memberId := "m1", amount := 100, percentage := 100,
                     contributionScore := some 10, weightedScore := none,
                     contributionCount := 1, contributionIds := ["c1"],
                     breakdownContribution := none,
                     breakdownEqualShare := none }] := by
  have he1 : eligibleContributions dbNoMilestone poolMs = [contribSimple] := by
    norm_num [eligibleContributions, getContributionsForPeriod,
      dbNoMilestone, poolMs, contribSimple]
  have he2 : eligibleContributions dbNoMilestoneLinear poolMsLinear =
      [contribSimple] := by
    norm_num [eligibleContributions, getContributionsForPeriod,
      dbNoMilestoneLinear, dbNoMilestone, poolMsLinear, poolMs, contribSimple]
  constructor
  · rw [calculateDistribution_result dbNoMilestone "r1" poolMs
      (by norm_num [getPool, dbNoMilestone, poolMs]) (by simp [he1]),
      dispatchModel_milestone dbNoMilestone poolMs _ rfl]
    norm_num [calculateMilestoneDistribution, getTeam, dbNoMilestone, poolMs]
  · rw [calculateDistribution_result dbNoMilestoneLinear "r1" poolMsLinear
      (by norm_num [getPool, dbNoMilestoneLinear, dbNoMilestone, poolMsLinear,
        poolMs]) (by simp [he2]),
      dispatchModel_linear dbNoMilestoneLinear poolMsLinear _ rfl, he2]
    norm_num [calculateLinearDistribution, groupLinear, addContribLinear,
      sortByAmountDesc, insertDesc, poolMsLinear, poolMs, contribSimple]

/-- C5 amended: whenever the milestone-model calculation completes (the
pool's team exists and has at least one milestone completed within the
period), it produces exactly the distribution rows of the linear model on
the same inputs — the milestone model degenerates to the linear split. -/
theorem milestone_model_degenerates_to_linear (db : Db) (pool : RoyaltyPool)
    (contribs : List Contribution) (d : List Dist)
    (hok : calculateMilestoneDistribution db pool contribs = Except.ok d) :
    d = calculateLinearDistribution pool contribs :=
  milestone_ok_eq_linear db pool contribs d hok

/-- C5 witness: the milestone calculation on dbWithMilestone completes and
matches the linear rows. -/
theorem milestone_degenerates_witness :
    (calculateMilestoneDistribution dbWithMilestone poolMs [contribSimple] =
        Except.ok [{ memberId := "m1", amount := 100, percentage := 100,
                     contributionScore := some 10, weightedScore := none,
                     contributionCount := 1, contributionIds := ["c1"],
                     breakdownContribution := none,
                     breakdownEqualShare := none }]) ∧
      ([{ memberId := "m1", amount := 100, percentage := 100,
          contributionScore := some 10, weightedScore := none,
          contributionCount := 1, contributionIds := ["c1"],
          breakdownContribution := none,
          breakdownEqualShare := none }] : List Dist) =
        calculateLinearDistribution poolMs [contribSimple] :=
  ⟨by norm_num [calculateMilestoneDistribution, getTeam, dbWithMilestone,
      poolMs, contribSimple, calculateLinearDistribution, groupLinear,
      addContribLinear, sortByAmountDesc, insertDesc],
   milestone_model_degenerates_to_linear dbWithMilestone poolMs
     [contribSimple] _
     (by norm_num [calculateMilestoneDistribution, getTeam, dbWithMilestone,
       poolMs, contribSimple, calculateLinearDistribution, groupLinear,
       addContribLinear, sortByAmountDesc, insertDesc])⟩

/-- C10: a pool whose distributionModel is none of the four recognized
values does not make calculateDistribution error on the model — the
default switch branch computes the linear distribution. -/
theorem unknown_model_falls_back_to_linear
    (db : Db) (pid : String) (pool : RoyaltyPool)
    (hpool : getPool db pid = some pool)
    (hm : pool.distributionModel ∉
      (["linear", "weighted", "milestone", "hybrid"] : List String))
    (hne : eligibleContributions db pool ≠ []) :
    (calculateDistribution db pid).2 =
      Except.ok (calculateLinearDistribution pool
        (eligibleContributions db pool)) := by
  have h1 : pool.distributionModel ≠ "linear" := fun h => hm (by simp [h])
  have h2 : pool.distributionModel ≠ "weighted" := fun h => hm (by simp [h])
  have h3 : pool.distributionModel ≠ "milestone" := fun h => hm (by simp [h])
  have h4 : pool.distributionModel ≠ "hybrid" := fun h => hm (by simp [h])
  simp [calculateDistribution, hpool, dispatchModel, h1, h2, h3, h4, hne,
    List.isEmpty_iff]

/-- C10 witness: unknown_model_falls_back_to_linear applied to the 'custom'
model pool of dbCustomModel. -/
theorem unknown_model_witness :
    (getPool dbCustomModel "r1" = some poolCustom ∧
      poolCustom.distributionModel ∉
        (["linear", "weighted", "milestone", "hybrid"] : List String) ∧
      eligibleContributions dbCustomModel poolCustom ≠ []) ∧
    (calculateDistribution dbCustomModel "r1").2 =
      Except.ok (calculateLinearDistribution poolCustom
        (eligibleContributions dbCustomModel poolCustom)) :=
  ⟨⟨by norm_num [getPool, dbCustomModel, poolCustom, poolMs],
    by norm_num [poolCustom, poolMs]; decide,
    by norm_num [eligibleContributions, getContributionsForPeriod,
      dbCustomModel, contribSimple, poolCustom, poolMs]⟩,
   unknown_model_falls_back_to_linear dbCustomModel "r1" poolCustom
     (by norm_num [getPool, dbCustomModel, poolCustom, poolMs])
     (by norm_num [poolCustom, poolMs]; decide)
     (by norm_num [eligibleContributions, getContributionsForPeriod,
       dbCustomModel, contribSimple, poolCustom, poolMs])⟩

/-- getTeam only depends on the teams collection. -/
theorem getTeam_congr (db db' : Db) (h : db'.teams = db.teams) (x : String) :
    getTeam db' x = getTeam db x := by
  simp [getTeam, h]

/-- getProposal after replacing the matching proposal in an arbitrary
store whose proposals are the mapped list. -/
theorem getProposal_update' (db' : Db) (l : List Proposal) (pid : String)
    (p0 p' : Proposal) (hid : p'.id = pid)
    (hl : db'.proposals = l.map (fun q => if q.id == pid then p' else q))
    (h : l.find? (fun q => q.id == pid) = some p0) :
    getProposal db' pid = some p' := by
  simp only [getProposal, hl]
  rw [find?_update_self Proposal.id l pid p' hid, h]
  rfl

/-- C4 counterexample: on a team of 4 with quorum 0.5, a single 'for'
ballot by a maximal-bonus voter carries weight 2, which alone meets the
required 2 weighted-vote units, so finalizeProposal after expiry yields
'passed', not 'expired'. -/
theorem quorum_scenario_counterexample :
    Except.map (fun p => p.status)
        (finalizeProposal
          (applyCast dbMaxVoter ⟨"v1", ⟨"p1", "m1", "for", ""⟩, 50⟩)
          "p1" 200).2 =
      Except.ok "passed" := by
  have hw : calculateVoteWeight dbMaxVoter "m1" "t1" = 2 := by
    norm_num [calculateVoteWeight, getMember, dbMaxVoter, maxContribs, round2]
  have hprop : dbMaxVoter.proposals = [pEarly] := rfl
  have hvotes : dbMaxVoter.votes = [] := rfl
  have hgp : getProposal dbMaxVoter "p1" = some pEarly := by
    norm_num [getProposal, hprop, pEarly]
  have hel : checkVoterEligibility dbMaxVoter "p1" "m1" = true := by
    norm_num [checkVoterEligibility, hgp, getTeam,
      show dbMaxVoter.teams = [teamFour] from rfl, teamFour, pEarly]
  have hcast : castVote dbMaxVoter "v1" ⟨"p1", "m1", "for", ""⟩ 50 =
      (dbMaxAfter, Except.ok voteRecMax) := by
    norm_num [castVote, hgp, hel, hw, pEarly, hprop, hvotes, dbMaxAfter,
      pMaxAfter, voteRecMax]
    decide
  have happ : applyCast dbMaxVoter ⟨"v1", ⟨"p1", "m1", "for", ""⟩, 50⟩ =
      dbMaxAfter := by
    simp [applyCast, hcast]
  rw [happ]
  have hprops2 : dbMaxAfter.proposals = [pMaxAfter] := rfl
  have hteams2 : dbMaxAfter.teams = [teamFour] := rfl
  norm_num [finalizeProposal, getProposal, getTeam, checkQuorum,
    checkApproval, hprops2, hteams2, teamFour, pMaxAfter, pEarly, Except.map]

/-- C4 amended: on a team of 4 with quorumRequired 0.5 (2 weighted-vote
units required), when the single voter's computed weight is below 2 (true
for any voter without maximal bonuses), a lone 'for' ballot cast before
expiresAt followed by finalizeProposal after expiresAt yields 'expired',
not 'passed', even though the vote was 100% 'for'. -/
theorem single_low_weight_vote_expires
    (db : Db) (pid vid m reas : String) (t1 now : ℤ) (p : Proposal)
    (team : Team)
    (hp : getProposal db pid = some p) (hact : p.status = "active")
    (hteam : getTeam db p.teamId = some team)
    (hsize : team.members.length = 4) (hquo : p.quorumRequired = 0.5)
    (hvoters : p.voters = []) (hf : p.votesFor = 0) (hag : p.votesAgainst = 0)
    (hab : p.votesAbstain = 0) (hmem : team.members.contains m = true)
    (ht1 : ¬ t1 > p.expiresAt)
    (hw : calculateVoteWeight db m p.teamId < 2)
    (hnow : now > p.expiresAt) :
    ∃ p', (finalizeProposal (castVote db vid ⟨pid, m, "for", reas⟩ t1).1
        pid now).2 = Except.ok p' ∧ p'.status = "expired" := by
  have hfind : List.find? (fun r => r.id == pid) db.proposals = some p := by
    simpa [getProposal] using hp
  have hid : p.id = pid := eq_of_beq (by simpa using List.find?_some hfind)
  have hmem' : m ∈ team.members := by simpa using hmem
  have hel : checkVoterEligibility db pid m = true := by
    simp [checkVoterEligibility, hp, hteam, hmem']
  have hcast : (castVote db vid ⟨pid, m, "for", reas⟩ t1).1 =
      { db with
        votes := db.votes ++
          [{ id := vid, proposalId := pid, voterId := m, vote := "for",
             reason := reas, weight := calculateVoteWeight db m p.teamId,
             timestamp := t1 }],
        proposals := db.proposals.map (fun q => if q.id == pid then { p with voters := p.voters ++ [m], votesFor := p.votesFor + calculateVoteWeight db m p.teamId } else q) } := by
    simp [castVote, hp, hact, hel, ht1, hvoters]
  have hgp1 : getProposal (castVote db vid ⟨pid, m, "for", reas⟩ t1).1 pid =
      some { p with voters := p.voters ++ [m], votesFor := p.votesFor + calculateVoteWeight db m p.teamId } := by
    refine getProposal_update' _ db.proposals pid p
      { p with voters := p.voters ++ [m], votesFor := p.votesFor + calculateVoteWeight db m p.teamId }
      hid ?_ hfind
    rw [hcast]
  have hteam1 : getTeam (castVote db vid ⟨pid, m, "for", reas⟩ t1).1 p.teamId =
      some team := by
    rw [getTeam_congr db _ (by rw [hcast])]
    exact hteam
  have happrov : ∃ a, checkApproval (castVote db vid ⟨pid, m, "for", reas⟩ t1).1
      pid = Except.ok a := by
    simp only [checkApproval, hgp1]
    split
    · exact ⟨_, rfl⟩
    · exact ⟨_, rfl⟩
  obtain ⟨a, ha⟩ := happrov
  have hnle : ¬ (2 : ℚ) ≤ calculateVoteWeight db m p.teamId := not_le.mpr hw
  refine ⟨{ p with voters := p.voters ++ [m], votesFor := p.votesFor + calculateVoteWeight db m p.teamId, status := "expired" }, ?_, rfl⟩
  norm_num [finalizeProposal, checkQuorum, hgp1, hteam1, ha, hact, hsize,
    hquo, hf, hag, hab, hnle, hnow]

/-- C4 witness: single_low_weight_vote_expires applied to the plain voter
of dbPlainVoter (weight 1). -/
theorem single_low_weight_vote_witness :
    (getProposal dbPlainVoter "p1" = some pEarly ∧
      pEarly.status = "active" ∧
      getTeam dbPlainVoter pEarly.teamId = some teamFour ∧
      teamFour.members.length = 4 ∧ pEarly.quorumRequired = 0.5 ∧
      pEarly.voters = [] ∧ pEarly.votesFor = 0 ∧ pEarly.votesAgainst = 0 ∧
      pEarly.votesAbstain = 0 ∧ teamFour.members.contains "m1" = true ∧
      ¬ (50 : ℤ) > pEarly.expiresAt ∧
      calculateVoteWeight dbPlainVoter "m1" pEarly.teamId < 2 ∧
      (200 : ℤ) > pEarly.expiresAt) ∧
    (∃ p', (finalizeProposal
        (castVote dbPlainVoter "v1" ⟨"p1", "m1", "for", ""⟩ 50).1
        "p1" 200).2 = Except.ok p' ∧ p'.status = "expired") := by
  have h1 : getProposal dbPlainVoter "p1" = some pEarly := by
    norm_num [getProposal, dbPlainVoter, pEarly]
  have h2 : pEarly.status = "active" := rfl
  have h3 : getTeam dbPlainVoter pEarly.teamId = some teamFour := by
    norm_num [getTeam, dbPlainVoter, teamFour, pEarly]
  have h4 : teamFour.members.length = 4 := rfl
  have h5 : pEarly.quorumRequired = 0.5 := rfl
  have h6 : pEarly.voters = [] := rfl
  have h7 : pEarly.votesFor = 0 := rfl
  have h8 : pEarly.votesAgainst = 0 := rfl
  have h9 : pEarly.votesAbstain = 0 := rfl
  have h10 : teamFour.members.contains "m1" = true := by decide
  have h11 : ¬ (50 : ℤ) > pEarly.expiresAt := by norm_num [pEarly]
  have h12 : calculateVoteWeight dbPlainVoter "m1" pEarly.teamId < 2 := by
    norm_num [calculateVoteWeight, getMember, dbPlainVoter, pEarly]
  have h13 : (200 : ℤ) > pEarly.expiresAt := by norm_num [pEarly]
  exact ⟨⟨h1, h2, h3, h4, h5, h6, h7, h8, h9, h10, h11, h12, h13⟩,
    single_low_weight_vote_expires dbPlainVoter "p1" "v1" "m1" "" 50 200
      pEarly teamFour h1 h2 h3 h4 h5 h6 h7 h8 h9 h10 h11 h12 h13⟩

/-- castVote either leaves the store unchanged (any validation failure) or
records the ballot and persists the tallied proposal. -/
theorem castVote_cases (db : Db) (vid : String) (vd : VoteData) (now : ℤ) :
    (castVote db vid vd now).1 = db ∨
    ∃ p, getProposal db vd.proposalId = some p ∧
      (vd.vote = "for" ∨ vd.vote = "against" ∨ vd.vote = "abstain") ∧
      (castVote db vid vd now).1 =
        { db with votes := db.votes ++ [newBallot db vid vd now p], proposals := db.proposals.map (fun q => if q.id == vd.proposalId then tallyProposal db vd p else q) } := by
  unfold castVote
  split
  · exact Or.inl rfl
  next p hp =>
    split
    · exact Or.inl rfl
    split
    · exact Or.inl rfl
    split
    · exact Or.inl rfl
    split
    · exact Or.inl rfl
    split
    · exact Or.inl rfl
    next h5 =>
      refine Or.inr ⟨p, hp, ?_, rfl⟩
      have h6 : ¬vd.vote = "for" → ¬vd.vote = "against" →
          vd.vote = "abstain" := by
        simpa using h5
      by_cases hfor : vd.vote = "for"
      · exact Or.inl hfor
      by_cases hagn : vd.vote = "against"
      · exact Or.inr (Or.inl hagn)
      exact Or.inr (Or.inr (h6 hfor hagn))

/-- Appending a ballot of the proposal adds its weight to the sum. -/
theorem weightSumFor_append_same (votes : List Vote) (v : Vote) (pid : String)
    (h : v.proposalId = pid) :
    weightSumFor (votes ++ [v]) pid = weightSumFor votes pid + v.weight := by
  simp [weightSumFor, List.filter_append, h]

/-- Appending a ballot of another proposal leaves the sum unchanged. -/
theorem weightSumFor_append_other (votes : List Vote) (v : Vote) (pid : String)
    (h : v.proposalId ≠ pid) :
    weightSumFor (votes ++ [v]) pid = weightSumFor votes pid := by
  simp [weightSumFor, List.filter_append, h]

/-- The tallied proposal's three tallies grow by exactly the ballot
weight. -/
theorem tallyProposal_sum (db : Db) (vd : VoteData) (p : Proposal)
    (hv : vd.vote = "for" ∨ vd.vote = "against" ∨ vd.vote = "abstain") :
    (tallyProposal db vd p).votesFor + (tallyProposal db vd p).votesAgainst +
        (tallyProposal db vd p).votesAbstain =
      p.votesFor + p.votesAgainst + p.votesAbstain +
        calculateVoteWeight db vd.voterId p.teamId := by
  rcases hv with hc | hc | hc <;> simp [tallyProposal, hc] <;> ring

/-- One castVote invocation preserves the tally conservation invariant. -/
theorem applyCast_preserves_tally (db : Db) (c : CastCall) (pid : String)
    (h : tallyInvariant db pid) : tallyInvariant (applyCast db c) pid := by
  rcases castVote_cases db c.voteId c.voteData c.now with hsame | ⟨p, hp, hopt, heq⟩
  · unfold applyCast
    rw [hsame]
    exact h
  · unfold applyCast
    rw [heq]
    have hfind : List.find? (fun r => r.id == c.voteData.proposalId)
        db.proposals = some p := by
      simpa [getProposal] using hp
    have hid : p.id = c.voteData.proposalId :=
      eq_of_beq (by simpa using List.find?_some hfind)
    intro p' hp'
    by_cases hxy : pid = c.voteData.proposalId
    · subst hxy
      have hup : getProposal { db with votes := db.votes ++ [newBallot db c.voteId c.voteData c.now p], proposals := db.proposals.map (fun q => if q.id == c.voteData.proposalId then tallyProposal db c.voteData p else q) } c.voteData.proposalId = some (tallyProposal db c.voteData p) :=
        getProposal_update' _ db.proposals c.voteData.proposalId p
          (tallyProposal db c.voteData p) hid rfl hfind
      rw [hup] at hp'
      have hp'' : p' = tallyProposal db c.voteData p :=
        (Option.some.inj hp').symm
      subst hp''
      have hbase := h p hp
      have hws : weightSumFor (db.votes ++ [newBallot db c.voteId c.voteData c.now p]) c.voteData.proposalId = weightSumFor db.votes c.voteData.proposalId + calculateVoteWeight db c.voteData.voterId p.teamId :=
        weightSumFor_append_same db.votes _ c.voteData.proposalId rfl
      calc (tallyProposal db c.voteData p).votesFor +
            (tallyProposal db c.voteData p).votesAgainst +
            (tallyProposal db c.voteData p).votesAbstain
          = p.votesFor + p.votesAgainst + p.votesAbstain +
              calculateVoteWeight db c.voteData.voterId p.teamId :=
            tallyProposal_sum db c.voteData p hopt
        _ = weightSumFor db.votes c.voteData.proposalId +
              calculateVoteWeight db c.voteData.voterId p.teamId := by
            rw [hbase]
        _ = weightSumFor
              (db.votes ++ [newBallot db c.voteId c.voteData c.now p])
              c.voteData.proposalId :=
            hws.symm
    · have hgp2 : getProposal { db with votes := db.votes ++ [newBallot db c.voteId c.voteData c.now p], proposals := db.proposals.map (fun q => if q.id == c.voteData.proposalId then tallyProposal db c.voteData p else q) } pid = getProposal db pid := by
        simp only [getProposal]
        exact find?_update_other Proposal.id db.proposals
          c.voteData.proposalId pid (tallyProposal db c.voteData p) hxy hid
      rw [hgp2] at hp'
      have hbase := h p' hp'
      have hws : weightSumFor (db.votes ++ [newBallot db c.voteId c.voteData c.now p]) pid = weightSumFor db.votes pid :=
        weightSumFor_append_other db.votes _ pid (fun hh => hxy (hh.symm))
      calc p'.votesFor + p'.votesAgainst + p'.votesAbstain
          = weightSumFor db.votes pid := hbase
        _ = weightSumFor (db.votes ++ [newBallot db c.voteId c.voteData c.now p]) pid := hws.symm

/-- Any sequence of castVote invocations preserves tally conservation. -/
theorem castSeq_preserves_tally (calls : List CastCall) (db : Db)
    (pid : String) (h : tallyInvariant db pid) :
    tallyInvariant (calls.foldl applyCast db) pid := by
  induction calls generalizing db with
  | nil => exact h
  | cons c rest ih => exact ih _ (applyCast_preserves_tally db c pid h)

/-- C8: after any sequence of castVote calls on a freshly created proposal
(zero tallies, no pre-existing ballots under its id), the proposal's
votesFor + votesAgainst + votesAbstain equals the sum of the weights of
all ballots recorded for it; failed calls leave the store unchanged, so
the conservation holds after every sequence of successful casts. -/
theorem tally_conservation (db : Db) (newId : String) (pd : ProposalData)
    (t0 : ℤ) (calls : List CastCall)
    (hfreshP : getProposal db newId = none)
    (hfreshV : ∀ v ∈ db.votes, v.proposalId ≠ newId) :
    tallyInvariant (calls.foldl applyCast (createProposal db newId pd t0).1)
      newId := by
  apply castSeq_preserves_tally
  have hfind0 : db.proposals.find? (fun q => q.id == newId) = none := by
    simpa [getProposal] using hfreshP
  intro p hp
  have hget : getProposal (createProposal db newId pd t0).1 newId =
      some (createProposal db newId pd t0).2 := by
    simp only [createProposal, getProposal]
    rw [find?_append_of_none _ db.proposals _ hfind0]
    simp
  rw [hget] at hp
  have hp' : p = (createProposal db newId pd t0).2 := (Option.some.inj hp).symm
  subst hp'
  have hflt : db.votes.filter (fun v => v.proposalId == newId) = [] := by
    rw [List.filter_eq_nil_iff]
    intro v hv
    simpa using hfreshV v hv
  simp [createProposal, weightSumFor, hflt]

/-- C8 witness: tally_conservation applied to a fresh proposal on
dbVoteBase followed by one castVote call. -/
theorem tally_conservation_witness :
    (getProposal dbVoteBase "p1" = none ∧
      ∀ v ∈ dbVoteBase.votes, v.proposalId ≠ "p1") ∧
    tallyInvariant
      ([⟨"v1", ⟨"p1", "m1", "for", ""⟩, (10 : ℤ)⟩].foldl applyCast
        (createProposal dbVoteBase "p1" pdVoteBase 0).1) "p1" := by
  have h1 : getProposal dbVoteBase "p1" = none := by
    norm_num [getProposal, dbVoteBase]
  have h2 : ∀ v ∈ dbVoteBase.votes, v.proposalId ≠ "p1" := by
    simp [dbVoteBase]
  exact ⟨⟨h1, h2⟩,
    tally_conservation dbVoteBase "p1" pdVoteBase 0
      [⟨"v1", ⟨"p1", "m1", "for", ""⟩, (10 : ℤ)⟩] h1 h2⟩

/-- Descending insertion produces a permutation of consing. -/
theorem insertDesc_perm (d : Dist) (l : List Dist) :
    (insertDesc d l).Perm (d :: l) := by
  induction l with
  | nil => exact List.Perm.refl _
  | cons x xs ih =>
    by_cases h : d.amount > x.amount
    · simp [insertDesc, h]
    · simp only [insertDesc, h, if_false]
      exact (ih.cons x).trans (List.Perm.swap d x xs)

/-- The descending sort permutes the rows. -/
theorem sortByAmountDesc_perm (l : List Dist) : (sortByAmountDesc l).Perm l := by
  induction l with
  | nil => exact List.Perm.refl _
  | cons x xs ih =>
    simp only [sortByAmountDesc, List.foldr_cons]
    simp only [sortByAmountDesc] at ih
    exact (insertDesc_perm x _).trans (ih.cons x)

/-- Sorting preserves the amount sum. -/
theorem sumAmount_sort (l : List Dist) :
    sumAmount (sortByAmountDesc l) = sumAmount l := by
  unfold sumAmount
  exact ((sortByAmountDesc_perm l).map (fun d => d.amount)).sum_eq

/-- Sorting preserves the percentage sum. -/
theorem sumPct_sort (l : List Dist) :
    sumPct (sortByAmountDesc l) = sumPct l := by
  unfold sumPct
  exact ((sortByAmountDesc_perm l).map (fun d => d.percentage)).sum_eq

/-- One linear grouping step adds the contribution's score to the total. -/
theorem addContribLinear_sum (c : Contribution) (acc : List MemberAgg) :
    ((addContribLinear c acc).map (fun a => a.totalScore)).sum =
      ((acc.map (fun a => a.totalScore)).sum) + c.score := by
  induction acc with
  | nil => simp [addContribLinear]
  | cons a t ih =>
    by_cases h : a.memberId = c.memberId
    · simp [addContribLinear, h]
      ring
    · simp [addContribLinear, h, ih]
      ring

/-- The linear grouping's total score is the sum of the raw scores. -/
theorem groupLinear_sum (l : List Contribution) :
    ((groupLinear l).map (fun a => a.totalScore)).sum =
      (l.map (fun c => c.score)).sum := by
  suffices h : ∀ acc : List MemberAgg,
      (((l.foldl (fun acc c => addContribLinear c acc) acc)).map
        (fun a => a.totalScore)).sum =
      ((acc.map (fun a => a.totalScore)).sum) +
        (l.map (fun c => c.score)).sum by
    simpa [groupLinear] using h []
  induction l with
  | nil => intro acc; simp
  | cons c t ih =>
    intro acc
    simp only [List.foldl_cons, List.map_cons, List.sum_cons]
    rw [ih (addContribLinear c acc), addContribLinear_sum]
    ring

/-- Proportional amounts over a list of aggregates sum to the scaled total
of the scores. -/
theorem aggRows_amount_sum (T S : ℚ) (gs : List MemberAgg) :
    ((gs.map (fun data => T * (data.totalScore / S))).sum) =
      T * (((gs.map (fun a => a.totalScore)).sum) / S) := by
  induction gs with
  | nil => simp
  | cons g t ih =>
    simp only [List.map_cons, List.sum_cons, ih]
    ring

/-- Proportional percentages over a list of aggregates sum to the scaled
total of the scores. -/
theorem aggRows_pct_sum (S : ℚ) (gs : List MemberAgg) :
    ((gs.map (fun data => data.totalScore / S * 100)).sum) =
      ((gs.map (fun a => a.totalScore)).sum) / S * 100 := by
  induction gs with
  | nil => simp
  | cons g t ih =>
    simp only [List.map_cons, List.sum_cons, ih]
    ring

/-- Linear distribution conservation: with a non-zero aggregated score the
amounts sum to totalAmount and the percentages to 100. -/
theorem calculateLinearDistribution_sums (pool : RoyaltyPool)
    (contribs : List Contribution)
    (hS : ((groupLinear contribs).map (fun a => a.totalScore)).sum ≠ 0) :
    sumAmount (calculateLinearDistribution pool contribs) = pool.totalAmount ∧
      sumPct (calculateLinearDistribution pool contribs) = 100 := by
  unfold calculateLinearDistribution
  constructor
  · rw [sumAmount_sort]
    simp only [sumAmount, List.map_map]
    have := aggRows_amount_sum pool.totalAmount
      ((groupLinear contribs).map (fun a => a.totalScore)).sum
      (groupLinear contribs)
    simpa [Function.comp, div_self hS] using this
  · rw [sumPct_sort]
    simp only [sumPct, List.map_map]
    have := aggRows_pct_sum
      ((groupLinear contribs).map (fun a => a.totalScore)).sum
      (groupLinear contribs)
    simpa [Function.comp, div_self hS] using this

/-- One weighted insertion step adds the weighted score to the total. -/
theorem insertWeighted_sum (c : Contribution) (ws : ℚ) (acc : List MemberAggW) :
    ((insertWeighted c ws acc).map (fun a => a.totalWeightedScore)).sum =
      ((acc.map (fun a => a.totalWeightedScore)).sum) + ws := by
  induction acc with
  | nil => simp [insertWeighted]
  | cons a t ih =>
    by_cases h : a.memberId = c.memberId
    · simp [insertWeighted, h]
      ring
    · simp [insertWeighted, h, ih]
      ring

/-- One weighted grouping step adds wsOf of the contribution. -/
theorem addContribWeighted_sum (db : Db) (acc : List MemberAggW)
    (c : Contribution) :
    ((addContribWeighted db acc c).map (fun a => a.totalWeightedScore)).sum =
      ((acc.map (fun a => a.totalWeightedScore)).sum) + wsOf db c := by
  unfold addContribWeighted wsOf
  cases getMember db c.memberId with
  | none => simp
  | some m => exact insertWeighted_sum c _ acc

/-- The weighted grouping's total equals the sum of the weighted scores. -/
theorem groupWeighted_sum (db : Db) (l : List Contribution) :
    ((groupWeighted db l).map (fun a => a.totalWeightedScore)).sum =
      (l.map (wsOf db)).sum := by
  suffices h : ∀ acc : List MemberAggW,
      ((l.foldl (addContribWeighted db) acc).map
        (fun a => a.totalWeightedScore)).sum =
      ((acc.map (fun a => a.totalWeightedScore)).sum) +
        (l.map (wsOf db)).sum by
    simpa [groupWeighted] using h []
  induction l with
  | nil => intro acc; simp
  | cons c t ih =>
    intro acc
    simp only [List.foldl_cons, List.map_cons, List.sum_cons]
    rw [ih (addContribWeighted db acc c), addContribWeighted_sum]
    ring

/-- Every role weight is positive. -/
theorem roleWeightOf_pos (r : String) : 0 < roleWeightOf r := by
  unfold roleWeightOf
  split_ifs <;> norm_num

/-- Every contribution-type weight is positive. -/
theorem typeWeightOf_pos (t : String) : 0 < typeWeightOf t := by
  unfold typeWeightOf
  split_ifs <;> norm_num

/-- A positive-score contribution whose member exists has positive weighted
score. -/
theorem wsOf_pos (db : Db) (c : Contribution)
    (hm : (getMember db c.memberId).isSome) (hs : 0 < c.score) :
    0 < wsOf db c := by
  unfold wsOf
  cases h : getMember db c.memberId with
  | none => simp [h] at hm
  | some m =>
    exact mul_pos (mul_pos hs (roleWeightOf_pos m.role)) (typeWeightOf_pos c.ctype)

/-- The weighted grouping's total is positive when the contributions are
non-empty with positive scores and existing member records. -/
theorem groupWeighted_sum_pos (db : Db) (l : List Contribution) (hne : l ≠ [])
    (hm : ∀ c ∈ l, (getMember db c.memberId).isSome)
    (hs : ∀ c ∈ l, 0 < c.score) :
    0 < ((groupWeighted db l).map (fun a => a.totalWeightedScore)).sum := by
  rw [groupWeighted_sum]
  apply List.sum_pos
  · intro x hx
    obtain ⟨c, hc, rfl⟩ := List.mem_map.mp hx
    exact wsOf_pos db c (hm c hc) (hs c hc)
  · simpa using hne

/-- The linear grouping's total is positive when the contributions are
non-empty with positive scores. -/
theorem groupLinear_sum_pos (l : List Contribution) (hne : l ≠ [])
    (hs : ∀ c ∈ l, 0 < c.score) :
    0 < ((groupLinear l).map (fun a => a.totalScore)).sum := by
  rw [groupLinear_sum]
  apply List.sum_pos
  · intro x hx
    obtain ⟨c, hc, rfl⟩ := List.mem_map.mp hx
    exact hs c hc
  · simpa using hne

/-- Proportional amounts over weighted aggregates sum to the scaled total. -/
theorem aggRowsW_amount_sum (T S : ℚ) (gs : List MemberAggW) :
    ((gs.map (fun data => T * (data.totalWeightedScore / S))).sum) =
      T * (((gs.map (fun a => a.totalWeightedScore)).sum) / S) := by
  induction gs with
  | nil => simp
  | cons g t ih =>
    simp only [List.map_cons, List.sum_cons, ih]
    ring

/-- Proportional percentages over weighted aggregates sum to the scaled
total. -/
theorem aggRowsW_pct_sum (S : ℚ) (gs : List MemberAggW) :
    ((gs.map (fun data => data.totalWeightedScore / S * 100)).sum) =
      ((gs.map (fun a => a.totalWeightedScore)).sum) / S * 100 := by
  induction gs with
  | nil => simp
  | cons g t ih =>
    simp only [List.map_cons, List.sum_cons, ih]
    ring

/-- Weighted distribution conservation: with a non-zero aggregated weighted
score the amounts sum to totalAmount and the percentages to 100. -/
theorem calculateWeightedDistribution_sums (db : Db) (pool : RoyaltyPool)
    (contribs : List Contribution)
    (hS : ((groupWeighted db contribs).map
      (fun a => a.totalWeightedScore)).sum ≠ 0) :
    sumAmount (calculateWeightedDistribution db pool contribs) =
        pool.totalAmount ∧
      sumPct (calculateWeightedDistribution db pool contribs) = 100 := by
  unfold calculateWeightedDistribution
  constructor
  · rw [sumAmount_sort]
    simp only [sumAmount, List.map_map]
    have := aggRowsW_amount_sum pool.totalAmount
      ((groupWeighted db contribs).map (fun a => a.totalWeightedScore)).sum
      (groupWeighted db contribs)
    simpa [Function.comp, div_self hS] using this
  · rw [sumPct_sort]
    simp only [sumPct, List.map_map]
    have := aggRowsW_pct_sum
      ((groupWeighted db contribs).map (fun a => a.totalWeightedScore)).sum
      (groupWeighted db contribs)
    simpa [Function.comp, div_self hS] using this

/-- Weighted insertion either augments an existing entry (ids unchanged)
or appends the new member id. -/
theorem insertWeighted_ids (c : Contribution) (ws : ℚ)
    (acc : List MemberAggW) :
    (insertWeighted c ws acc).map (fun a => a.memberId) =
      if c.memberId ∈ acc.map (fun a => a.memberId) then
        acc.map (fun a => a.memberId)
      else acc.map (fun a => a.memberId) ++ [c.memberId] := by
  induction acc with
  | nil => simp [insertWeighted]
  | cons a t ih =>
    by_cases h : a.memberId = c.memberId
    · simp [insertWeighted, h]
    · by_cases h2 : c.memberId ∈ t.map (fun a => a.memberId)
      · simp [insertWeighted, h, h2, ih, Ne.symm h]
      · simp [insertWeighted, h, h2, ih, Ne.symm h]

/-- Weighted insertion preserves distinctness of the member ids. -/
theorem insertWeighted_nodup (c : Contribution) (ws : ℚ)
    (acc : List MemberAggW)
    (h : (acc.map (fun a => a.memberId)).Nodup) :
    ((insertWeighted c ws acc).map (fun a => a.memberId)).Nodup := by
  rw [insertWeighted_ids]
  by_cases h2 : c.memberId ∈ acc.map (fun a => a.memberId)
  · simpa [h2] using h
  · simp [h2, List.nodup_append, h]

/-- The weighted grouping keeps member ids distinct. -/
theorem groupWeighted_nodup (db : Db) (l : List Contribution) :
    ((groupWeighted db l).map (fun a => a.memberId)).Nodup := by
  suffices h : ∀ acc : List MemberAggW,
      (acc.map (fun a => a.memberId)).Nodup →
      ((l.foldl (addContribWeighted db) acc).map
        (fun a => a.memberId)).Nodup by
    exact h [] (by simp)
  induction l with
  | nil => intro acc hacc; simpa using hacc
  | cons c t ih =>
    intro acc hacc
    simp only [List.foldl_cons]
    apply ih
    unfold addContribWeighted
    cases getMember db c.memberId with
    | none => exact hacc
    | some m => exact insertWeighted_nodup c _ acc hacc

/-- Membership in the member ids after a weighted insertion. -/
theorem insertWeighted_ids_mem (c : Contribution) (ws : ℚ)
    (acc : List MemberAggW) (x : String) :
    x ∈ (insertWeighted c ws acc).map (fun a => a.memberId) ↔
      x ∈ acc.map (fun a => a.memberId) ∨ x = c.memberId := by
  rw [insertWeighted_ids]
  by_cases h2 : c.memberId ∈ acc.map (fun a => a.memberId)
  · simp only [h2, if_true]
    constructor
    · exact Or.inl
    · rintro (hx | rfl)
      · exact hx
      · exact h2
  · simp [h2]

/-- Membership in the member ids after one weighted grouping step, when
the member record exists. -/
theorem addContribWeighted_ids_mem (db : Db) (acc : List MemberAggW)
    (c : Contribution) (x : String)
    (hm : (getMember db c.memberId).isSome) :
    x ∈ (addContribWeighted db acc c).map (fun a => a.memberId) ↔
      x ∈ acc.map (fun a => a.memberId) ∨ x = c.memberId := by
  unfold addContribWeighted
  cases h : getMember db c.memberId with
  | none => simp [h] at hm
  | some m => exact insertWeighted_ids_mem c _ acc x

/-- When every contribution's member exists, the grouped member ids are
exactly the contributing member ids. -/
theorem groupWeighted_ids_mem (db : Db) (l : List Contribution) (x : String)
    (hm : ∀ c ∈ l, (getMember db c.memberId).isSome) :
    x ∈ (groupWeighted db l).map (fun a => a.memberId) ↔
      x ∈ l.map (fun c => c.memberId) := by
  suffices h : ∀ acc : List MemberAggW, (∀ c ∈ l, (getMember db c.memberId).isSome) →
      (x ∈ (l.foldl (addContribWeighted db) acc).map (fun a => a.memberId) ↔
        x ∈ acc.map (fun a => a.memberId) ∨ x ∈ l.map (fun c => c.memberId)) by
    simpa [groupWeighted] using h [] hm
  clear hm
  induction l with
  | nil => intro acc _; simp
  | cons c t ih =>
    intro acc hmm
    simp only [List.foldl_cons]
    rw [ih (addContribWeighted db acc c) (fun d hd => hmm d (List.mem_cons_of_mem c hd)),
      addContribWeighted_ids_mem db acc c x (hmm c (List.mem_cons_self c t))]
    simp only [List.map_cons, List.mem_cons]
    tauto

/-- When every contribution's member exists, the number of grouped entries
equals the number of distinct contributing member ids. -/
theorem groupWeighted_length (db : Db) (l : List Contribution)
    (hm : ∀ c ∈ l, (getMember db c.memberId).isSome) :
    (groupWeighted db l).length =
      ((l.map (fun c => c.memberId)).dedup).length := by
  have h1 : ((groupWeighted db l).map (fun a => a.memberId)).Nodup :=
    groupWeighted_nodup db l
  have h2 : ((l.map (fun c => c.memberId)).dedup).Nodup :=
    List.nodup_dedup _
  have h3 : ∀ x, x ∈ (groupWeighted db l).map (fun a => a.memberId) ↔
      x ∈ (l.map (fun c => c.memberId)).dedup := by
    intro x
    rw [List.mem_dedup]
    exact groupWeighted_ids_mem db l x hm
  have hperm := (List.perm_ext_iff_of_nodup h1 h2).mpr h3
  simpa using hperm.length_eq

/-- The weighted rows carry the grouped member ids (up to the sort's
permutation). -/
theorem weightedRows_ids_perm (db : Db) (pool : RoyaltyPool)
    (contribs : List Contribution) :
    ((calculateWeightedDistribution db pool contribs).map
        (fun d => d.memberId)).Perm
      ((groupWeighted db contribs).map (fun a => a.memberId)) := by
  unfold calculateWeightedDistribution
  have h1 := (sortByAmountDesc_perm
    ((groupWeighted db contribs).map (fun data =>
      ({ memberId := data.memberId,
         amount := pool.totalAmount *
           (data.totalWeightedScore / ((groupWeighted db contribs).map
             (fun m => m.totalWeightedScore)).sum),
         percentage := data.totalWeightedScore / ((groupWeighted db contribs).map
             (fun m => m.totalWeightedScore)).sum * 100,
         contributionScore := none,
         weightedScore := some data.totalWeightedScore,
         contributionCount := data.contributionCount,
         contributionIds := data.contributions,
         breakdownContribution := none,
         breakdownEqualShare := none } : Dist)))).map (fun d => d.memberId)
  simpa [List.map_map, Function.comp] using h1

/-- The hybrid loop over rows with distinct, unprocessed member ids is the
map of hybRow. -/
theorem hybridLoop_eq_map (T wA eq : ℚ) (processed : List String)
    (rows : List Dist) (hnd : (rows.map (fun d => d.memberId)).Nodup)
    (hdis : ∀ d ∈ rows, d.memberId ∉ processed) :
    hybridLoop T wA eq processed rows = rows.map (hybRow T wA eq) := by
  induction rows generalizing processed with
  | nil => simp [hybridLoop]
  | cons d rest ih =>
    have hd : d.memberId ∉ processed := hdis d (List.mem_cons_self d rest)
    have hcontains : processed.contains d.memberId = false := by
      simpa using hd
    simp only [hybridLoop, hcontains, Bool.false_eq_true, if_false,
      List.map_cons]
    refine congrArg _ ?_
    apply ih
    · exact (List.nodup_cons.mp (by simpa using hnd)).2
    · intro e he
      have hne : e.memberId ≠ d.memberId := by
        have hdn : d.memberId ∉ rest.map (fun r => r.memberId) :=
          (List.nodup_cons.mp (by simpa using hnd)).1
        intro hh
        exact hdn (hh ▸ List.mem_map_of_mem (fun r => r.memberId) he)
      intro hmem
      rcases List.mem_append.mp hmem with h1 | h1
      · exact hdis e (List.mem_cons_of_mem d he) h1
      · exact hne (by simpa using h1)

/-- Hybrid rows' amounts sum to the scaled weighted total plus the equal
shares. -/
theorem hyb_amount_sum (T wA eq : ℚ) (rows : List Dist) :
    ((rows.map (hybRow T wA eq)).map (fun d => d.amount)).sum =
      ((rows.map (fun d => d.amount)).sum) / T * wA + rows.length * eq := by
  induction rows with
  | nil => simp
  | cons d rest ih =>
    simp only [List.map_cons, List.sum_cons, List.length_cons, ih, hybRow]
    push_cast
    ring

/-- Hybrid rows' percentages are the amounts scaled by 100 / T. -/
theorem hyb_pct_sum (T wA eq : ℚ) (rows : List Dist) :
    ((rows.map (hybRow T wA eq)).map (fun d => d.percentage)).sum =
      ((rows.map (hybRow T wA eq)).map (fun d => d.amount)).sum / T * 100 := by
  induction rows with
  | nil => simp
  | cons d rest ih =>
    simp only [List.map_cons, List.sum_cons, ih, hybRow]
    ring

/-- Hybrid distribution conservation. -/
theorem calculateHybridDistribution_sums (db : Db) (pool : RoyaltyPool)
    (contribs : List Contribution) (hne : contribs ≠ [])
    (hm : ∀ c ∈ contribs, (getMember db c.memberId).isSome)
    (hs : ∀ c ∈ contribs, 0 < c.score)
    (hT : pool.totalAmount ≠ 0) :
    sumAmount (calculateHybridDistribution db pool contribs) =
        pool.totalAmount ∧
      sumPct (calculateHybridDistribution db pool contribs) = 100 := by
  have hS : ((groupWeighted db contribs).map
      (fun a => a.totalWeightedScore)).sum ≠ 0 :=
    ne_of_gt (groupWeighted_sum_pos db contribs hne hm hs)
  have hwsum := calculateWeightedDistribution_sums db pool contribs hS
  have hperm := weightedRows_ids_perm db pool contribs
  have hnd : ((calculateWeightedDistribution db pool contribs).map
      (fun d => d.memberId)).Nodup :=
    hperm.nodup_iff.mpr (groupWeighted_nodup db contribs)
  have hlen : (calculateWeightedDistribution db pool contribs).length =
      ((contribs.map (fun c => c.memberId)).dedup).length := by
    have h1 := hperm.length_eq
    simp only [List.length_map] at h1
    rw [h1, groupWeighted_length db contribs hm]
  have hm0 : ((contribs.map (fun c => c.memberId)).dedup) ≠ [] := by
    simp [hne]
  have hmQ : (((contribs.map (fun c => c.memberId)).dedup).length : ℚ) ≠ 0 := by
    simpa using hm0
  have hloop := hybridLoop_eq_map pool.totalAmount (pool.totalAmount * 0.7)
    (pool.totalAmount * 0.3 /
      (((contribs.map (fun c => c.memberId)).dedup).length : ℚ)) []
    (calculateWeightedDistribution db pool contribs) hnd (by simp)
  rw [sumAmount] at hwsum
  constructor
  · unfold calculateHybridDistribution
    rw [sumAmount_sort, hloop]
    have ha := hyb_amount_sum pool.totalAmount (pool.totalAmount * 0.7)
      (pool.totalAmount * 0.3 /
        (((contribs.map (fun c => c.memberId)).dedup).length : ℚ))
      (calculateWeightedDistribution db pool contribs)
    rw [sumAmount, ha, hwsum.1, hlen]
    field_simp
    ring
  · unfold calculateHybridDistribution
    rw [sumPct_sort, hloop]
    have hp := hyb_pct_sum pool.totalAmount (pool.totalAmount * 0.7)
      (pool.totalAmount * 0.3 /
        (((contribs.map (fun c => c.memberId)).dedup).length : ℚ))
      (calculateWeightedDistribution db pool contribs)
    have ha := hyb_amount_sum pool.totalAmount (pool.totalAmount * 0.7)
      (pool.totalAmount * 0.3 /
        (((contribs.map (fun c => c.memberId)).dedup).length : ℚ))
      (calculateWeightedDistribution db pool contribs)
    rw [sumPct, hp, ha, hwsum.1, hlen]
    field_simp
    ring

/-- C3 counterexample: a weighted-model pool of totalAmount 1000 whose
only eligible contribution belongs to a member with no member record
completes with an empty distribution list, whose amounts sum to 0, not
1000 — conservation fails without the member-record hypothesis. -/
theorem conservation_counterexample :
    (calculateDistribution dbGhostMember "r1").2 = Except.ok ([] : List Dist) ∧
      ¬(|sumAmount ([] : List Dist) - (1000 : ℚ)| ≤ 1 / 1000000) := by
  constructor
  · have he : eligibleContributions dbGhostMember poolGhost = [contribGhost] := by
      norm_num [eligibleContributions, getContributionsForPeriod,
        dbGhostMember, poolGhost, contribGhost]
    rw [calculateDistribution_result dbGhostMember "r1" poolGhost
        (by norm_num [getPool, dbGhostMember, poolGhost]) (by simp [he]),
      dispatchModel_weighted dbGhostMember poolGhost _ rfl, he]
    norm_num [calculateWeightedDistribution, groupWeighted,
      addContribWeighted, getMember, dbGhostMember, contribGhost,
      sortByAmountDesc]
  · norm_num [sumAmount]

/-- C3 amended: for every pool and non-empty eligible contribution set for
which calculateDistribution completes — provided every eligible
contribution's member has a member record, every eligible contribution's
score is positive, and the pool's totalAmount is positive — the resulting
distributions satisfy Σ amount = totalAmount within 1e-6 and
Σ percentage = 100 within 1e-6, under each of the four distribution models
(and the default fallback). -/
theorem distribution_conservation
    (db : Db) (pid : String) (pool : RoyaltyPool) (d : List Dist)
    (hpool : getPool db pid = some pool)
    (hmem : ∀ c ∈ eligibleContributions db pool,
      (getMember db c.memberId).isSome)
    (hscore : ∀ c ∈ eligibleContributions db pool, 0 < c.score)
    (hT : 0 < pool.totalAmount)
    (hok : (calculateDistribution db pid).2 = Except.ok d) :
    |sumAmount d - pool.totalAmount| ≤ 1 / 1000000 ∧
      |sumPct d - 100| ≤ 1 / 1000000 := by
  by_cases hemp : eligibleContributions db pool = []
  · exfalso
    have herr : (calculateDistribution db pid).2 =
        Except.error "No contributions found for this period" := by
      unfold calculateDistribution
      rw [hpool]
      simp [hemp]
    rw [herr] at hok
    simp at hok
  · rw [calculateDistribution_result db pid pool hpool hemp] at hok
    suffices hsum : sumAmount d = pool.totalAmount ∧ sumPct d = 100 by
      rw [hsum.1, hsum.2]
      norm_num
    unfold dispatchModel at hok
    split_ifs at hok with h1 h2 h3 h4
    · have hd : d = calculateLinearDistribution pool
          (eligibleContributions db pool) := (Except.ok.inj hok).symm
      subst hd
      exact calculateLinearDistribution_sums pool _
        (ne_of_gt (groupLinear_sum_pos _ hemp hscore))
    · have hd : d = calculateWeightedDistribution db pool
          (eligibleContributions db pool) := (Except.ok.inj hok).symm
      subst hd
      exact calculateWeightedDistribution_sums db pool _
        (ne_of_gt (groupWeighted_sum_pos db _ hemp hmem hscore))
    · have hd := milestone_ok_eq_linear db pool _ d hok
      subst hd
      exact calculateLinearDistribution_sums pool _
        (ne_of_gt (groupLinear_sum_pos _ hemp hscore))
    · have hd : d = calculateHybridDistribution db pool
          (eligibleContributions db pool) := (Except.ok.inj hok).symm
      subst hd
      exact calculateHybridDistribution_sums db pool _ hemp hmem hscore
        (ne_of_gt hT)
    · have hd : d = calculateLinearDistribution pool
          (eligibleContributions db pool) := (Except.ok.inj hok).symm
      subst hd
      exact calculateLinearDistribution_sums pool _
        (ne_of_gt (groupLinear_sum_pos _ hemp hscore))

/-- C3 witness: distribution_conservation applied to the simple linear
pool of dbLinearSimple. -/
theorem conservation_witness :
    (getPool dbLinearSimple "r1" = some poolLinear ∧
      (∀ c ∈ eligibleContributions dbLinearSimple poolLinear,
        (getMember dbLinearSimple c.memberId).isSome) ∧
      (∀ c ∈ eligibleContributions dbLinearSimple poolLinear, 0 < c.score) ∧
      (0 : ℚ) < poolLinear.totalAmount ∧
      (calculateDistribution dbLinearSimple "r1").2 =
        Except.ok [{ memberId := "m1", amount := 100, percentage := 100,
                     contributionScore := some 10, weightedScore := none,
                     contributionCount := 1, contributionIds := ["c1"],
                     breakdownContribution := none,
                     breakdownEqualShare := none }]) ∧
    (|sumAmount [{ memberId := "m1", amount := 100, percentage := 100,
                   contributionScore := some 10, weightedScore := none,
                   contributionCount := 1, contributionIds := ["c1"],
                   breakdownContribution := none,
                   breakdownEqualShare := none }] -
        poolLinear.totalAmount| ≤ 1 / 1000000 ∧
      |sumPct [{ memberId := "m1", amount := 100, percentage := 100,
                 contributionScore := some 10, weightedScore := none,
                 contributionCount := 1, contributionIds := ["c1"],
                 breakdownContribution := none,
                 breakdownEqualShare := none }] - 100| ≤ 1 / 1000000) := by
  have he : eligibleContributions dbLinearSimple poolLinear =
      [contribSimple] := by
    norm_num [eligibleContributions, getContributionsForPeriod,
      dbLinearSimple, poolLinear, contribSimple]
  have h1 : getPool dbLinearSimple "r1" = some poolLinear := by
    norm_num [getPool, dbLinearSimple, poolLinear]
  have h2 : ∀ c ∈ eligibleContributions dbLinearSimple poolLinear,
      (getMember dbLinearSimple c.memberId).isSome := by
    rw [he]
    intro c hc
    have hc' : c = contribSimple := by simpa using hc
    subst hc'
    norm_num [getMember, dbLinearSimple, contribSimple]
  have h3 : ∀ c ∈ eligibleContributions dbLinearSimple poolLinear,
      0 < c.score := by
    rw [he]
    intro c hc
    have hc' : c = contribSimple := by simpa using hc
    subst hc'
    norm_num [contribSimple]
  have h4 : (0 : ℚ) < poolLinear.totalAmount := by norm_num [poolLinear]
  have h5 : (calculateDistribution dbLinearSimple "r1").2 =
      Except.ok [{ memberId := "m1", amount := 100, percentage := 100,
                   contributionScore := some 10, weightedScore := none,
                   contributionCount := 1, contributionIds := ["c1"],
                   breakdownContribution := none,
                   breakdownEqualShare := none }] := by
    rw [calculateDistribution_result dbLinearSimple "r1" poolLinear h1
        (by simp [he]),
      dispatchModel_linear dbLinearSimple poolLinear _ rfl, he]
    norm_num [calculateLinearDistribution, groupLinear, addContribLinear,
      sortByAmountDesc, insertDesc, poolLinear, contribSimple]
  exact ⟨⟨h1, h2, h3, h4, h5⟩,
    distribution_conservation dbLinearSimple "r1" poolLinear _ h1 h2 h3 h4 h5⟩

end HackathonDAO
